import Mathlib

/-!
# Conway's Game of Life on a terminal grid (`life.c`)

A shallow embedding of the C program and proofs of properties of its
neighbour count (`sum_of_neighbors`), its generation step
(`next_generation`), the grid initialisation and the running loop of
`start_game`, the terminal output (`term_position_cursor`, `draw_cells`) and
the two signal handlers.

Conventions of the embedding.

* `size_t` values are natural numbers; every `size_t` operation of the source
  that can wrap is written with an explicit reduction modulo `SIZE_MOD = 2 ^ 64`.
* The global variables of the program are the fields of `Game`.
* Reading `cells[i]` outside the allocated array is undefined behaviour in C;
  here such a read makes the computation fail (`none`).
* `sum_of_neighbors` runs in the `Exec` monad, which besides failing on an
  out-of-bounds read records every `size_t` subtraction and every array index
  that the function evaluates, in program order.
* What the program writes to `stdout` is a list of bytes (natural numbers
  below 256); the functions that only write return the bytes they write.
-/

namespace Life

/-! ## Machine model -/

/-- Number of values of the C type `size_t` (64-bit target). -/
def SIZE_MOD : Nat := 2 ^ 64

/-- Something `sum_of_neighbors` does that the safety statements talk about. -/
inductive Event where
  /-- the `size_t` subtraction `a - b` was evaluated -/
  | sub (a b : Nat)
  /-- the array element `cells[idx]` was read -/
  | load (idx : Nat)
  deriving DecidableEq, Repr

/-- A computation that either fails (undefined behaviour) or returns a value
together with the events it performed, oldest first. -/
structure Exec (α : Type) where
  run : Option (α × List Event)

/-- Sequencing: run `x`, then `f` on its value; the logs are concatenated. -/
def Exec.bind {α β : Type} (x : Exec α) (f : α → Exec β) : Exec β :=
  ⟨x.run.bind fun p => ((f p.1).run).map fun q => (q.1, p.2 ++ q.2)⟩

instance : Monad Exec where
  pure a := ⟨some (a, [])⟩
  bind := Exec.bind

/-- The C expression `a - b` on `size_t` operands: wraps modulo `SIZE_MOD`. -/
def size_sub (a b : Nat) : Exec Nat :=
  ⟨some ((a + SIZE_MOD - b) % SIZE_MOD, [Event.sub a b])⟩

/-- Says that an event is harmless for a cell array of `num_cells` elements: a
subtraction does not wrap below zero, a read is inside the array. -/
def Event.safe (num_cells : Nat) : Event → Prop
  | Event.sub a b => b ≤ a
  | Event.load idx => idx < num_cells

instance (num_cells : Nat) (e : Event) : Decidable (e.safe num_cells) := by
  cases e <;> unfold Event.safe <;> infer_instance

/-! ## Data model (`life.c`, lines 15-28) -/

/-- The C struct `Cell`. -/
structure Cell where
  row : Nat
  col : Nat
  alive : Bool
  next : Bool
  deriving DecidableEq, Repr

instance : Inhabited Cell := ⟨⟨0, 0, false, false⟩⟩

/-- The global variables `win_changed`, `num_rows`, `num_cols`, `num_cells`
and the array `cells` points to. -/
structure Game where
  win_changed : Bool
  num_rows : Nat
  num_cols : Nat
  num_cells : Nat
  cells : List Cell
  deriving DecidableEq, Repr

/-- The macro `CELL(r, c)`, i.e. `cells[((r) * num_cols) + (c)]`, used as an
rvalue: the index is computed in `size_t` arithmetic and the element is read. -/
def CELL (g : Game) (r c : Nat) : Exec Cell :=
  let idx := (r * g.num_cols + c) % SIZE_MOD
  ⟨(g.cells[idx]?).map fun x => (x, [Event.load idx])⟩

/-! ## `sum_of_neighbors` (`life.c`, lines 67-105) -/

/-- The function `sum_of_neighbors`; `cell` is the value `*cell` of the
argument, of which only `row` and `col` are read.  Every `+=` of the source
rebinds `live_neighbors`. -/
def sum_of_neighbors (g : Game) (cell : Cell) : Exec Nat := do
  let live_neighbors := 0
  let row := cell.row
  let col := cell.col
  -- if (row > 0) { ... }
  let live_neighbors ←
    (if row > 0 then do
      let live_neighbors ←
        (if col > 0 then do
          pure (live_neighbors
            + (← CELL g (← size_sub row 1) (← size_sub col 1)).alive.toNat)
        else pure live_neighbors)
      let live_neighbors :=
        live_neighbors + (← CELL g (← size_sub row 1) col).alive.toNat
      let last_col ← size_sub g.num_cols 1
      (if col < last_col then do
        pure (live_neighbors
          + (← CELL g (← size_sub row 1) ((col + 1) % SIZE_MOD)).alive.toNat)
      else pure live_neighbors)
    else pure live_neighbors)
  -- if (col > 0) { ... }
  let live_neighbors ←
    (if col > 0 then do
      pure (live_neighbors + (← CELL g row (← size_sub col 1)).alive.toNat)
    else pure live_neighbors)
  -- if (col < num_cols - 1) { ... }
  let last_col ← size_sub g.num_cols 1
  let live_neighbors ←
    (if col < last_col then do
      pure (live_neighbors + (← CELL g row ((col + 1) % SIZE_MOD)).alive.toNat)
    else pure live_neighbors)
  -- if (row < num_rows - 1) { ... }
  let last_row ← size_sub g.num_rows 1
  let live_neighbors ←
    (if row < last_row then do
      let live_neighbors ←
        (if col > 0 then do
          pure (live_neighbors
            + (← CELL g ((row + 1) % SIZE_MOD) (← size_sub col 1)).alive.toNat)
        else pure live_neighbors)
      let live_neighbors :=
        live_neighbors + (← CELL g ((row + 1) % SIZE_MOD) col).alive.toNat
      let last_col ← size_sub g.num_cols 1
      (if col < last_col then do
        pure (live_neighbors
          + (← CELL g ((row + 1) % SIZE_MOD) ((col + 1) % SIZE_MOD)).alive.toNat)
      else pure live_neighbors)
    else pure live_neighbors)
  return live_neighbors

/-! ## `next_generation` (`life.c`, lines 107-129) -/

/-- Body of the first loop of `next_generation` for index `i`:
`cell = &cells[i]; n = sum_of_neighbors(cell);`
`cell->next = (cell->alive) ? (n == 2 || n == 3) : (n == 3);` -/
def next_generation_stage (g : Game) (i : Nat) : Option Game := do
  let cell ← g.cells[i]?
  let (n, _) ← (sum_of_neighbors g cell).run
  let next := if cell.alive then (n == 2 || n == 3) else (n == 3)
  pure { g with cells := g.cells.set i { cell with next := next } }

/-- Body of the second loop of `next_generation` for index `i`:
`cell = &cells[i]; cell->alive = cell->next; cell->next = false;` -/
def next_generation_commit (g : Game) (i : Nat) : Option Game := do
  let cell ← g.cells[i]?
  let cell := { cell with alive := cell.next }
  let cell := { cell with next := false }
  pure { g with cells := g.cells.set i cell }

/-- The function `next_generation`: two loops `for (i = 0; i < num_cells; ++i)`
that update the array in place. -/
def next_generation (g : Game) : Option Game := do
  let g ← (List.range g.num_cells).foldlM next_generation_stage g
  let g ← (List.range g.num_cells).foldlM next_generation_commit g
  pure g

/-- Calls `next_generation` `k` times in a row. -/
def generations : Nat → Game → Option Game
  | 0, g => some g
  | k + 1, g => (next_generation g).bind (generations k)

/-! ## Grid allocation and seeding in `start_game` (`life.c`, lines 131-153) -/

/-- The macro `DENSITY`. -/
def DENSITY : Nat := 7

/-- The function `term_get_size`; `ws_row` and `ws_col` are the two
`unsigned short` fields that the `TIOCGWINSZ` ioctl stores in `w`. -/
def term_get_size (g : Game) (ws_row ws_col : Nat) : Game :=
  let g := { g with num_rows := ws_row }
  let g := { g with num_cols := ws_col }
  { g with num_cells := (g.num_rows * g.num_cols) % SIZE_MOD }

/-- The globals together with the locals `row` and `col` of `start_game` and
the number of calls of `rand()` made so far. -/
structure Seeding where
  game : Game
  row : Nat
  col : Nat
  drawn : Nat
  deriving DecidableEq, Repr

/-- Body of the initialisation loop of `start_game` for index `i`.  The
generator is the stream `rand`: its `k`-th call (from 0) returns `rand k`, a
non-negative `int`. -/
def start_game_seed_cell (rand : Nat → Nat) (s : Seeding) (i : Nat) : Option Seeding := do
  -- if (col == num_cols) { col = 0; row++; }
  let s :=
    if s.col = s.game.num_cols then { s with col := 0, row := (s.row + 1) % SIZE_MOD } else s
  let cell ← s.game.cells[i]?
  -- cells[i].row = row; cells[i].col = col;
  let cell := { cell with row := s.row, col := s.col }
  -- cells[i].alive = ((rand() % DENSITY) == 1); cells[i].next = false;
  let cell := { cell with alive := (rand s.drawn % DENSITY == 1), next := false }
  let s :=
    { s with game := { s.game with cells := s.game.cells.set i cell }, drawn := s.drawn + 1 }
  -- col++;
  pure { s with col := (s.col + 1) % SIZE_MOD }

/-- The function `start_game` up to the end of its initialisation loop:
`term_get_size()`, the release of the old array, `calloc` (a zeroed array of
`num_cells` cells; allocation is assumed to succeed) and the seeding loop. -/
def start_game_init (g : Game) (ws_row ws_col : Nat) (rand : Nat → Nat) : Option Seeding := do
  let g := term_get_size g ws_row ws_col
  let g := { g with cells := List.replicate g.num_cells ⟨0, 0, false, false⟩ }
  (List.range g.num_cells).foldlM (start_game_seed_cell rand) ⟨g, 0, 0, 0⟩

/-! ## Terminal output (`life.c`, lines 38-65) -/

/-- The decimal digits of `n` as ASCII bytes, most significant first. -/
def decimal (n : Nat) : List Nat := (Nat.toDigits 10 n).map Char.toNat

/-- The C library conversion `%zd` applied to the `size_t` argument `v`: the
argument is read as the signed integer type of the same width and written in
decimal, with a leading `-` (byte 45) when negative. -/
def printf_zd (v : Nat) : List Nat :=
  if v < SIZE_MOD / 2 then decimal v else 45 :: decimal (SIZE_MOD - v)

/-- The function `term_position_cursor`: the bytes that
`fprintf(stdout, "\033[%zd;%zdf", row + 1, col + 1)` writes
(`27` is ESC, `91` is `[`, `59` is `;`, `102` is `f`). -/
def term_position_cursor (row col : Nat) : List Nat :=
  [27, 91] ++ printf_zd ((row + 1) % SIZE_MOD) ++ [59] ++ printf_zd ((col + 1) % SIZE_MOD)
    ++ [102]

/-- The function `term_clear_screen`: the bytes of `"\033[2J"`. -/
def term_clear_screen : List Nat := [27, 91, 50, 74]

/-- The function `term_show_cursor`: the bytes of `"\033[?25h"`. -/
def term_show_cursor : List Nat := [27, 91, 63, 50, 53, 104]

/-- The function `term_hide_cursor`: the bytes of `"\033[?25l"`. -/
def term_hide_cursor : List Nat := [27, 91, 63, 50, 53, 108]

/-- The function `term_reset`: the bytes of `"\033c"`. -/
def term_reset : List Nat := [27, 99]

/-- The bytes of the string literal `"█"` of `draw_cells` (UTF-8 of U+2588). -/
def BLOCK : List Nat := [226, 150, 136]

/-- The bytes of the string literal `" "` of `draw_cells`. -/
def BLANK : List Nat := [32]

/-- Body of the loop of `draw_cells` for index `i`, appending to the bytes
`out` written so far: `cell = cells[i]; term_position_cursor(cell.row, cell.col);`
`fprintf(stdout, "%s", (cell.alive) ? "█" : " ");` -/
def draw_cells_cell (g : Game) (out : List Nat) (i : Nat) : Option (List Nat) := do
  let cell ← g.cells[i]?
  let out := out ++ term_position_cursor cell.row cell.col
  pure (out ++ (if cell.alive then BLOCK else BLANK))

/-- The function `draw_cells`: the bytes it writes to `stdout`. -/
def draw_cells (g : Game) : Option (List Nat) :=
  (List.range g.num_cells).foldlM (draw_cells_cell g) []

/-! ## The running loop of `start_game` and the signal handlers (`life.c`, lines 160-180) -/

/-- The function `winch_handler`: `win_changed = true`. -/
def winch_handler (g : Game) : Game := { g with win_changed := true }

/-- The macro `EXIT_SUCCESS`. -/
def EXIT_SUCCESS : Nat := 0

/-- How the process ends in `int_handler`: the bytes written, the globals as
they are then, and the status passed to `exit`. -/
structure Exited where
  output : List Nat
  game : Game
  status : Nat
  deriving DecidableEq, Repr

/-- The function `int_handler`, called with the globals `g`:
`term_show_cursor(); term_reset(); exit(EXIT_SUCCESS);` -/
def int_handler (g : Game) (_signum : Int) : Exited :=
  let out := term_show_cursor
  let out := out ++ term_reset
  { output := out, game := g, status := EXIT_SUCCESS }

/-- What one pass of the `while (true)` loop of `start_game` does, in order. -/
inductive Step where
  /-- `draw_cells()` wrote `out` -/
  | draw (out : List Nat)
  /-- `nanosleep(&t, NULL)` -/
  | sleep
  /-- `next_generation()` -/
  | evolve
  /-- the test `if (win_changed)` read `value` -/
  | read_flag (value : Bool)
  /-- `win_changed = false` -/
  | clear_flag
  deriving DecidableEq, Repr

/-- Whether `SIGWINCH` is delivered while `draw_cells`, `nanosleep` and
`next_generation` run in one pass of the loop. -/
structure Arrivals where
  in_draw : Bool
  in_sleep : Bool
  in_evolve : Bool
  deriving DecidableEq, Repr

/-- Result of one pass: the globals, what was done, and whether `start_game`
returned. -/
structure Tick where
  game : Game
  steps : List Step
  returned : Bool
  deriving DecidableEq, Repr

/-- Runs `winch_handler` if the signal arrived. -/
def deliver (arrived : Bool) (g : Game) : Game :=
  if arrived then winch_handler g else g

/-- One pass of the `while (true)` loop of `start_game`.  The three calls
neither read nor write `win_changed`, so a signal that arrives during one of
them is delivered when that call is over. -/
def start_game_tick (g : Game) (sig : Arrivals) : Option Tick := do
  let out ← draw_cells g
  let g := deliver sig.in_draw g
  -- nanosleep(&t, NULL);
  let g := deliver sig.in_sleep g
  let g ← next_generation g
  let g := deliver sig.in_evolve g
  let steps := [Step.draw out, Step.sleep, Step.evolve, Step.read_flag g.win_changed]
  (if g.win_changed then
    pure { game := { g with win_changed := false }, steps := steps ++ [Step.clear_flag],
           returned := true }
  else
    pure { game := g, steps := steps, returned := false })

/-! ## Well-formed states -/

/-- The dimensions are `size_t` values, `num_cells` is their product and the
array has `num_cells` elements. -/
def Game.sized (g : Game) : Prop :=
  g.num_rows < SIZE_MOD ∧ g.num_cols < SIZE_MOD ∧ g.num_rows * g.num_cols < SIZE_MOD ∧
  g.num_cells = g.num_rows * g.num_cols ∧ g.cells.length = g.num_cells

instance (g : Game) : Decidable g.sized := by
  unfold Game.sized
  infer_instance

/-- Every cell stores a position inside the grid. -/
def Game.in_range (g : Game) : Prop :=
  ∀ i (h : i < g.cells.length), g.cells[i].row < g.num_rows ∧ g.cells[i].col < g.num_cols

instance (g : Game) : Decidable g.in_range := by
  unfold Game.in_range
  infer_instance

/-- Every cell stores its own row-major position:
`row = index / num_cols`, `col = index % num_cols`. -/
def Game.positioned (g : Game) : Prop :=
  ∀ i (h : i < g.cells.length),
    g.cells[i].row = i / g.num_cols ∧ g.cells[i].col = i % g.num_cols

instance (g : Game) : Decidable g.positioned := by
  unfold Game.positioned
  infer_instance

/-- A grid of `num_rows x num_cols` cells that store their row-major position. -/
def Game.is_grid (g : Game) : Prop := g.sized ∧ g.positioned

instance (g : Game) : Decidable g.is_grid := by
  unfold Game.is_grid
  infer_instance

/-! ## The specification's view: a read-only snapshot of the `alive` array -/

/-- The `alive` values of all cells in array order. -/
def alive_snapshot (g : Game) : List Bool := g.cells.map fun cell => cell.alive

/-- The eight neighbour directions `(dr, dc)`: `dr, dc ∈ {-1, 0, 1}`, not both zero. -/
def neighbor_offsets : List (Int × Int) :=
  (([-1, 0, 1] : List Int).flatMap fun dr => ([-1, 0, 1] : List Int).map fun dc => (dr, dc)).filter
    fun d => d ≠ (0, 0)

/-- Whether position `(r, c)` lies inside the `rows x cols` grid and is alive in
the row-major snapshot `snap`.  Positions are integers, so that `r - 1` at
`r = 0` is outside the grid rather than wrapped. -/
def snapshot_at (rows cols : Nat) (snap : List Bool) (r c : Int) : Bool :=
  decide (0 ≤ r ∧ r < rows ∧ 0 ≤ c ∧ c < cols) && snap.getD (r.toNat * cols + c.toNat) false

/-- Number of neighbour positions of `(r, c)` that lie inside the grid and are
alive in the snapshot: no wraparound, the cell itself is not counted. -/
def clamped_count (rows cols : Nat) (snap : List Bool) (r c : Nat) : Nat :=
  (neighbor_offsets.filter fun d => snapshot_at rows cols snap (r + d.1) (c + d.2)).length

/-- The rule table of Life: the next state of a cell from its state and the
number of its live neighbours. -/
def rule_table : Bool → Nat → Bool
  | true, 0 => false
  | true, 1 => false
  | true, 2 => true
  | true, 3 => true
  | true, _ => false
  | false, 3 => true
  | false, _ => false

/-- One generation computed from a read-only snapshot: every new value is the
rule applied to the old value of the cell and its count in the old snapshot. -/
def snapshot_step (rows cols : Nat) (snap : List Bool) : List Bool :=
  (List.range snap.length).map fun i =>
    rule_table (snap.getD i false) (clamped_count rows cols snap (i / cols) (i % cols))

/-- The part of the state that `next_generation` must not change: the resize
flag, the dimensions and the stored position of every cell, in array order. -/
def frame_of (g : Game) : Bool × Nat × Nat × Nat × List (Nat × Nat) :=
  (g.win_changed, g.num_rows, g.num_cols, g.num_cells, g.cells.map fun cell => (cell.row, cell.col))

/-! ## Closed forms used in the proofs -/

/-- The cell stored at row `r`, column `c` of the row-major array (exact
arithmetic; the default cell outside the array). -/
def cell_at (g : Game) (r c : Nat) : Cell := g.cells.getD (r * g.num_cols + c) default

/-- Value of `sum_of_neighbors` at `(row, col)`, one guarded summand for each
of the eight `+=` statements, in program order. -/
def neighbor_sum (g : Game) (row col : Nat) : Nat :=
  0
  + (if 0 < row ∧ 0 < col then (cell_at g (row - 1) (col - 1)).alive.toNat else 0)
  + (if 0 < row then (cell_at g (row - 1) col).alive.toNat else 0)
  + (if 0 < row ∧ col < g.num_cols - 1 then (cell_at g (row - 1) (col + 1)).alive.toNat else 0)
  + (if 0 < col then (cell_at g row (col - 1)).alive.toNat else 0)
  + (if col < g.num_cols - 1 then (cell_at g row (col + 1)).alive.toNat else 0)
  + (if row < g.num_rows - 1 ∧ 0 < col then (cell_at g (row + 1) (col - 1)).alive.toNat else 0)
  + (if row < g.num_rows - 1 then (cell_at g (row + 1) col).alive.toNat else 0)
  + (if row < g.num_rows - 1 ∧ col < g.num_cols - 1
      then (cell_at g (row + 1) (col + 1)).alive.toNat else 0)

/-- Events of `sum_of_neighbors` at `(row, col)`, in program order. -/
def neighbor_trace (g : Game) (row col : Nat) : List Event :=
  (if 0 < row then
    (if 0 < col then
      [Event.sub row 1, Event.sub col 1, Event.load ((row - 1) * g.num_cols + (col - 1))]
    else [])
    ++ [Event.sub row 1, Event.load ((row - 1) * g.num_cols + col), Event.sub g.num_cols 1]
    ++ (if col < g.num_cols - 1 then
      [Event.sub row 1, Event.load ((row - 1) * g.num_cols + (col + 1))]
    else [])
  else [])
  ++ (if 0 < col then [Event.sub col 1, Event.load (row * g.num_cols + (col - 1))] else [])
  ++ [Event.sub g.num_cols 1]
  ++ (if col < g.num_cols - 1 then [Event.load (row * g.num_cols + (col + 1))] else [])
  ++ [Event.sub g.num_rows 1]
  ++ (if row < g.num_rows - 1 then
    (if 0 < col then
      [Event.sub col 1, Event.load ((row + 1) * g.num_cols + (col - 1))]
    else [])
    ++ [Event.load ((row + 1) * g.num_cols + col), Event.sub g.num_cols 1]
    ++ (if col < g.num_cols - 1 then
      [Event.load ((row + 1) * g.num_cols + (col + 1))]
    else [])
  else [])

/-- Puts the events `l` in front of the log of a result. -/
def logged (l : List Event) {β : Type} (o : Option (β × List Event)) :
    Option (β × List Event) :=
  o.map fun q => (q.1, l ++ q.2)

/-- The array while a loop `for (i = 0; i < num_cells; ++i)` that rewrites
`cells[i]` to `F cells[i]` has completed `k` iterations. -/
def partly (F : Cell → Cell) (l : List Cell) (k : Nat) : List Cell :=
  l.mapIdx fun j x => if j < k then F x else x

/-- The expression `(cell->alive) ? (n == 2 || n == 3) : (n == 3)` of the first loop. -/
def staged_value (alive : Bool) (n : Nat) : Bool :=
  if alive then (n == 2 || n == 3) else (n == 3)

/-- What the first loop of `next_generation` makes of a cell of `g`. -/
def staged (g : Game) (cell : Cell) : Cell :=
  { cell with next := staged_value cell.alive (neighbor_sum g cell.row cell.col) }

/-- What the second loop of `next_generation` makes of a cell. -/
def committed (cell : Cell) : Cell :=
  { cell with alive := cell.next, next := false }

/-- What a whole call of `next_generation` makes of a cell of `g`. -/
def evolved (g : Game) (cell : Cell) : Cell :=
  { cell with alive := staged_value cell.alive (neighbor_sum g cell.row cell.col), next := false }

/-- The array that the initialisation loop builds for an `R x C` terminal. -/
def seeded_cells (R C : Nat) (rand : Nat → Nat) : List Cell :=
  (List.range (R * C)).map fun i => ⟨i / C, i % C, rand i % DENSITY == 1, false⟩

/-- Loop invariant of the initialisation loop after `k` rounds. -/
def seeding_inv (g0 : Game) (R C : Nat) (rand : Nat → Nat) (k : Nat) (s : Seeding) : Prop :=
  s.game.win_changed = g0.win_changed ∧ s.game.num_rows = R ∧ s.game.num_cols = C
  ∧ s.game.num_cells = R * C ∧ s.drawn = k ∧ s.row * C + s.col = k ∧ s.col ≤ C
  ∧ s.game.cells.length = R * C
  ∧ ∀ j, j < k → s.game.cells[j]? = some ⟨j / C, j % C, rand j % DENSITY == 1, false⟩

/-! ## Transformed grids: a dead border, mirror images -/

/-- The alive pattern of `g` surrounded by one ring of dead cells: a grid of
`(num_rows + 2) x (num_cols + 2)` cells. -/
def padded (g : Game) : Game :=
  { win_changed := g.win_changed, num_rows := g.num_rows + 2, num_cols := g.num_cols + 2,
    num_cells := (g.num_rows + 2) * (g.num_cols + 2),
    cells := (List.range ((g.num_rows + 2) * (g.num_cols + 2))).map fun i =>
      { row := i / (g.num_cols + 2), col := i % (g.num_cols + 2),
        alive := decide (1 ≤ i / (g.num_cols + 2) ∧ i / (g.num_cols + 2) ≤ g.num_rows
            ∧ 1 ≤ i % (g.num_cols + 2) ∧ i % (g.num_cols + 2) ≤ g.num_cols)
          && (cell_at g (i / (g.num_cols + 2) - 1) (i % (g.num_cols + 2) - 1)).alive,
        next := false } }

/-- The alive pattern reflected left-right: cell `(r, c)` takes the `alive`
value of cell `(r, num_cols - 1 - c)`. -/
def mirror_lr (g : Game) : Game :=
  { g with cells := g.cells.map fun cell =>
      { cell with alive := (cell_at g cell.row (g.num_cols - 1 - cell.col)).alive } }

/-- The alive pattern reflected top-bottom: cell `(r, c)` takes the `alive`
value of cell `(num_rows - 1 - r, c)`. -/
def mirror_tb (g : Game) : Game :=
  { g with cells := g.cells.map fun cell =>
      { cell with alive := (cell_at g (g.num_rows - 1 - cell.row) cell.col).alive } }

/-! ## Concrete grids used as test inputs -/

/-- A `3 x 3` grid holding a vertical blinker, with stale `next` values. -/
def blinker : Game :=
  { win_changed := false, num_rows := 3, num_cols := 3, num_cells := 9,
    cells := [⟨0, 0, false, true⟩, ⟨0, 1, true, false⟩, ⟨0, 2, false, true⟩,
              ⟨1, 0, false, false⟩, ⟨1, 1, true, true⟩, ⟨1, 2, false, false⟩,
              ⟨2, 0, false, true⟩, ⟨2, 1, true, true⟩, ⟨2, 2, false, false⟩] }

/-- A `2 x 3` grid of dead cells with stale `next` values. -/
def dead_grid : Game :=
  { win_changed := false, num_rows := 2, num_cols := 3, num_cells := 6,
    cells := [⟨0, 0, false, true⟩, ⟨0, 1, false, false⟩, ⟨0, 2, false, true⟩,
              ⟨1, 0, false, false⟩, ⟨1, 1, false, true⟩, ⟨1, 2, false, false⟩] }

/-- Positions of the alive cells of the glider seed. -/
def glider_seed : List (Nat × Nat) := [(0, 1), (1, 2), (2, 0), (2, 1), (2, 2)]

/-- Positions of the alive cells one generation after `glider_seed`. -/
def glider_next : List (Nat × Nat) := [(1, 0), (1, 2), (2, 1), (2, 2), (3, 1)]

/-- The `5 x 5` grid whose alive cells are exactly those of `glider_seed`. -/
def glider : Game :=
  { win_changed := false, num_rows := 5, num_cols := 5, num_cells := 25,
    cells := (List.range 25).map fun i =>
      ⟨i / 5, i % 5, decide ((i / 5, i % 5) ∈ glider_seed), false⟩ }

/-- A `1 x 1` grid whose only cell is alive. -/
def single_alive : Game :=
  { win_changed := false, num_rows := 1, num_cols := 1, num_cells := 1,
    cells := [⟨0, 0, true, false⟩] }

/-- The `3 x 3` grid `blinker` with a different flag and other `next` values. -/
def blinker_flagged : Game :=
  { win_changed := true, num_rows := 3, num_cols := 3, num_cells := 9,
    cells := [⟨0, 0, false, false⟩, ⟨0, 1, true, true⟩, ⟨0, 2, false, false⟩,
              ⟨1, 0, false, true⟩, ⟨1, 1, true, false⟩, ⟨1, 2, false, true⟩,
              ⟨2, 0, false, false⟩, ⟨2, 1, true, false⟩, ⟨2, 2, false, true⟩] }

/-- A `2 x 3` grid without symmetry. -/
def lopsided : Game :=
  { win_changed := false, num_rows := 2, num_cols := 3, num_cells := 6,
    cells := [⟨0, 0, true, false⟩, ⟨0, 1, true, false⟩, ⟨0, 2, false, false⟩,
              ⟨1, 0, true, false⟩, ⟨1, 1, false, false⟩, ⟨1, 2, false, false⟩] }

/-! ## Running `Exec` programs symbolically -/

theorem SIZE_MOD_eq : SIZE_MOD = 18446744073709551616 := by
  unfold SIZE_MOD
  norm_num

theorem run_pure {α : Type} (a : α) : (pure a : Exec α).run = some (a, []) := rfl

theorem run_bind {α β : Type} (x : Exec α) (f : α → Exec β) :
    (x >>= f).run = x.run.bind fun p => ((f p.1).run).map fun q => (q.1, p.2 ++ q.2) := rfl

theorem logged_some {β : Type} (l l2 : List Event) (b : β) :
    logged l (some (b, l2)) = some (b, l ++ l2) := rfl

theorem run_assoc {α β γ : Type} (x : Exec α) (f : α → Exec β) (k : β → Exec γ) :
    ((x >>= f) >>= k).run = (x >>= fun a => f a >>= k).run := by
  simp only [run_bind]
  cases x.run with
  | none => rfl
  | some p =>
    simp only [Option.some_bind]
    cases (f p.1).run with
    | none => rfl
    | some q =>
      simp only [Option.map_some', Option.some_bind]
      cases (k q.1).run with
      | none => rfl
      | some w => simp [List.append_assoc]

theorem run_pure_bind {α β : Type} (a : α) (f : α → Exec β) :
    (pure a >>= f).run = (f a).run := by
  simp only [run_bind, run_pure, Option.some_bind]
  cases (f a).run with
  | none => rfl
  | some q => simp

theorem run_ite_bind_pos {α β : Type} (c : Prop) [Decidable c] (x y : Exec α)
    (f : α → Exec β) (h : c) :
    ((if c then x else y) >>= f).run = (x >>= f).run := by
  rw [if_pos h]

theorem run_ite_bind_neg {α β : Type} (c : Prop) [Decidable c] (x y : Exec α)
    (f : α → Exec β) (h : ¬ c) :
    ((if c then x else y) >>= f).run = (y >>= f).run := by
  rw [if_neg h]

theorem run_size_sub_bind {β : Type} (a b : Nat) (f : Nat → Exec β)
    (h : b ≤ a) (ha : a < 18446744073709551616) :
    (size_sub a b >>= f).run = logged [Event.sub a b] (f (a - b)).run := by
  have e : (a + SIZE_MOD - b) % SIZE_MOD = a - b := by
    rw [SIZE_MOD_eq]
    omega
  simp only [run_bind, size_sub, e, Option.some_bind, logged]

theorem idx_lt {rows cols r c : Nat} (hr : r < rows) (hc : c < cols) :
    r * cols + c < rows * cols := by
  calc r * cols + c < r * cols + cols := by omega
    _ = (r + 1) * cols := by ring
    _ ≤ rows * cols := Nat.mul_le_mul_right cols hr

theorem CELL_run (g : Game) (r c : Nat) (hg : g.sized)
    (hr : r < g.num_rows) (hc : c < g.num_cols) :
    (CELL g r c).run = some (cell_at g r c, [Event.load (r * g.num_cols + c)]) := by
  obtain ⟨_, _, hsz, hn, hlen⟩ := hg
  have h := idx_lt hr hc
  have hl : r * g.num_cols + c < g.cells.length := by omega
  have h2 : (r * g.num_cols + c) % SIZE_MOD = r * g.num_cols + c :=
    Nat.mod_eq_of_lt (by omega)
  simp only [CELL, cell_at, h2]
  rw [List.getElem?_eq_getElem hl]
  simp [List.getD_eq_getElem?_getD, List.getElem?_eq_getElem hl]

theorem run_CELL_bind {β : Type} (g : Game) (r c : Nat) (f : Cell → Exec β) (hg : g.sized)
    (hr : r < g.num_rows) (hc : c < g.num_cols) :
    (CELL g r c >>= f).run
      = logged [Event.load (r * g.num_cols + c)] (f (cell_at g r c)).run := by
  simp only [run_bind, CELL_run g r c hg hr hc, Option.some_bind, logged]

/-! ## The neighbour count in closed form -/

/-- Symbolic execution of `sum_of_neighbors`: for a cell inside a sized grid it
succeeds, returns `neighbor_sum` and performs exactly `neighbor_trace`. -/
theorem sum_of_neighbors_run (g : Game) (cell : Cell) (hg : g.sized)
    (h1 : cell.row < g.num_rows) (h2 : cell.col < g.num_cols) :
    (sum_of_neighbors g cell).run
      = some (neighbor_sum g cell.row cell.col, neighbor_trace g cell.row cell.col) := by
  have hr : g.num_rows < 18446744073709551616 := SIZE_MOD_eq ▸ hg.1
  have hc : g.num_cols < 18446744073709551616 := SIZE_MOD_eq ▸ hg.2.1
  have a1 : cell.row < g.num_rows - 1 → (cell.row + 1) % SIZE_MOD = cell.row + 1 := by
    intro h
    rw [SIZE_MOD_eq]
    omega
  have a2 : cell.col < g.num_cols - 1 → (cell.col + 1) % SIZE_MOD = cell.col + 1 := by
    intro h
    rw [SIZE_MOD_eq]
    omega
  unfold sum_of_neighbors neighbor_sum neighbor_trace
  by_cases c1 : 0 < cell.row <;> by_cases c2 : 0 < cell.col <;>
  by_cases c3 : cell.col < g.num_cols - 1 <;> by_cases c4 : cell.row < g.num_rows - 1 <;>
  simp (disch := first | omega | (rw [SIZE_MOD_eq]; omega)) only [↓ run_assoc, ↓ run_pure_bind,
    ↓ run_ite_bind_pos,
    ↓ run_ite_bind_neg, ↓ run_size_sub_bind, ↓ run_CELL_bind g _ _ _ hg, a1, a2, gt_iff_lt,
    run_pure, logged_some, c1, c2, c3, c4, if_true, if_false, and_true, and_false, true_and,
    false_and, List.append_nil, List.nil_append, List.cons_append, List.append_assoc,
    Nat.add_zero, Nat.zero_add]

/-! ## In-place loops over the cell array -/

theorem partly_getElem? (F : Cell → Cell) (l : List Cell) (k j : Nat) :
    (partly F l k)[j]? = (l[j]?).map fun x => if j < k then F x else x := by
  unfold partly
  rw [List.getElem?_mapIdx]

theorem partly_length (F : Cell → Cell) (l : List Cell) (k : Nat) :
    (partly F l k).length = l.length := by
  unfold partly
  rw [List.length_mapIdx]

theorem partly_zero (F : Cell → Cell) (l : List Cell) : partly F l 0 = l := by
  apply List.ext_getElem?
  intro j
  rw [partly_getElem?]
  cases l[j]? <;> simp

theorem partly_full (F : Cell → Cell) (l : List Cell) (k : Nat) (h : l.length ≤ k) :
    partly F l k = l.map F := by
  apply List.ext_getElem?
  intro j
  rw [partly_getElem?, List.getElem?_map]
  by_cases hj : j < l.length
  · have : j < k := by omega
    simp [this]
  · rw [List.getElem?_eq_none (by omega)]
    rfl

theorem partly_set (F : Cell → Cell) (l : List Cell) (k : Nat) (x : Cell)
    (h : l[k]? = some x) :
    (partly F l k).set k (F x) = partly F l (k + 1) := by
  apply List.ext_getElem?
  intro j
  rw [List.getElem?_set, partly_getElem?, partly_getElem?, partly_length]
  have hk : k < l.length := by
    by_contra hn
    rw [List.getElem?_eq_none (by omega)] at h
    cases h
  by_cases hj : k = j
  · subst hj
    simp [hk, h]
  · simp only [hj, if_false]
    by_cases hlt : j < k
    · have : j < k + 1 := by omega
      simp [hlt, this]
    · have : ¬ j < k + 1 := by omega
      simp [hlt, this]

/-- A loop whose body at index `k` replaces `cells[k]` by `F cells[k]` and
touches nothing else turns the array into `partly F cells k` after `k` rounds. -/
theorem loop_range (body : Game → Nat → Option Game) (F : Cell → Cell) (g : Game)
    (H : ∀ k, k < g.cells.length →
      body { g with cells := partly F g.cells k } k
        = some { g with cells := partly F g.cells (k + 1) }) :
    ∀ k, k ≤ g.cells.length →
      (List.range k).foldlM body g = some { g with cells := partly F g.cells k } := by
  intro k
  induction k with
  | zero =>
    intro _
    simp [partly_zero]
  | succ k ih =>
    intro hk
    rw [List.range_succ, List.foldlM_append, ih (by omega)]
    simp [H k (by omega)]

/-! ## `next_generation` in closed form -/

theorem neighbor_sum_congr (g1 g2 : Game) (hr : g1.num_rows = g2.num_rows)
    (hc : g1.num_cols = g2.num_cols)
    (ha : ∀ r c, (cell_at g1 r c).alive = (cell_at g2 r c).alive) (row col : Nat) :
    neighbor_sum g1 row col = neighbor_sum g2 row col := by
  unfold neighbor_sum
  simp only [hr, hc, ha]

theorem cell_at_partly_alive (F : Cell → Cell) (hF : ∀ x, (F x).alive = x.alive)
    (g : Game) (k r c : Nat) :
    (cell_at { g with cells := partly F g.cells k } r c).alive = (cell_at g r c).alive := by
  unfold cell_at
  simp only [List.getD_eq_getElem?_getD, partly_getElem?]
  cases g.cells[r * g.num_cols + c]? with
  | none => rfl
  | some x =>
    simp only [Option.map_some', Option.getD_some]
    split
    · exact hF x
    · rfl

theorem getElem?_of_in_range (g : Game) (hin : g.in_range) (i : Nat) (cell : Cell)
    (h : g.cells[i]? = some cell) : cell.row < g.num_rows ∧ cell.col < g.num_cols := by
  have hi : i < g.cells.length := by
    by_contra hn
    rw [List.getElem?_eq_none (by omega)] at h
    cases h
  rw [List.getElem?_eq_getElem hi] at h
  cases h
  exact hin i hi

theorem stage_loop (g : Game) (hg : g.sized) (hin : g.in_range) :
    (List.range g.num_cells).foldlM next_generation_stage g
      = some { g with cells := g.cells.map (staged g) } := by
  have key := loop_range next_generation_stage (staged g) g (by
    intro k hk
    have hget : (partly (staged g) g.cells k)[k]? = some g.cells[k] := by
      rw [partly_getElem?, List.getElem?_eq_getElem hk]
      simp
    have hpos := hin k hk
    have hsum := sum_of_neighbors_run { g with cells := partly (staged g) g.cells k } g.cells[k]
      (by
        obtain ⟨a, b, c, d, e⟩ := hg
        exact ⟨a, b, c, d, by rw [← e]; exact partly_length _ _ _⟩)
      hpos.1 hpos.2
    have hn := neighbor_sum_congr { g with cells := partly (staged g) g.cells k } g rfl rfl
      (cell_at_partly_alive (staged g) (fun _ => rfl) g k) g.cells[k].row g.cells[k].col
    unfold next_generation_stage
    simp only [hget, hsum, hn, Option.bind_eq_bind, Option.some_bind, Option.pure_def]
    have hs := partly_set (staged g) g.cells k g.cells[k] (List.getElem?_eq_getElem hk)
    simp only [staged, staged_value] at hs ⊢
    rw [hs]) g.num_cells (by rw [hg.2.2.2.2])
  rw [key, partly_full _ _ _ (by rw [hg.2.2.2.2])]

theorem commit_loop (g : Game) (hlen : g.cells.length = g.num_cells) :
    (List.range g.num_cells).foldlM next_generation_commit g
      = some { g with cells := g.cells.map committed } := by
  have key := loop_range next_generation_commit committed g (by
    intro k hk
    have hget : (partly committed g.cells k)[k]? = some g.cells[k] := by
      rw [partly_getElem?, List.getElem?_eq_getElem hk]
      simp
    unfold next_generation_commit
    simp only [hget, Option.bind_eq_bind, Option.some_bind, Option.pure_def]
    have hs := partly_set committed g.cells k g.cells[k] (List.getElem?_eq_getElem hk)
    simp only [committed] at hs ⊢
    rw [hs]) g.num_cells (by rw [hlen])
  rw [key, partly_full _ _ _ (by rw [hlen])]

/-- On a sized grid whose cells store positions inside the grid, `next_generation`
returns, and the new array is the old one with `evolved g` applied to every cell. -/
theorem next_generation_eq (g : Game) (hg : g.sized) (hin : g.in_range) :
    next_generation g = some { g with cells := g.cells.map (evolved g) } := by
  unfold next_generation
  rw [stage_loop g hg hin]
  simp only [Option.bind_eq_bind, Option.some_bind]
  rw [commit_loop _ (by simp [hg.2.2.2.2])]
  simp only [Option.some_bind, Option.pure_def, List.map_map]
  rfl

/-! ## The closed form against the snapshot specification -/

theorem neighbor_offsets_eq : neighbor_offsets
    = [(-1, -1), (-1, 0), (-1, 1), (0, -1), (0, 1), (1, -1), (1, 0), (1, 1)] := by
  decide

theorem snapshot_getD (g : Game) (i : Nat) :
    (alive_snapshot g).getD i false = (g.cells.getD i default).alive := by
  unfold alive_snapshot
  simp only [List.getD_eq_getElem?_getD, List.getElem?_map]
  cases g.cells[i]? <;> rfl

/-- One summand of the clamped count agrees with the guarded summand of the code. -/
theorem summand_eq (g : Game) (r c : Nat) (dr dc : Int) (r2 c2 : Nat) (guard : Prop)
    [Decidable guard]
    (h1 : guard → (r : Int) + dr = r2 ∧ (c : Int) + dc = c2 ∧ r2 < g.num_rows ∧ c2 < g.num_cols)
    (h2 : ¬ guard → ¬ (0 ≤ (r : Int) + dr ∧ (r : Int) + dr < g.num_rows
      ∧ 0 ≤ (c : Int) + dc ∧ (c : Int) + dc < g.num_cols)) :
    (if snapshot_at g.num_rows g.num_cols (alive_snapshot g) (r + dr) (c + dc) = true
      then 1 else 0)
    = (if guard then (cell_at g r2 c2).alive.toNat else 0) := by
  by_cases hgd : guard
  · obtain ⟨e1, e2, b1, b2⟩ := h1 hgd
    have hin : (0 : Int) ≤ r2 ∧ (r2 : Int) < g.num_rows ∧ (0 : Int) ≤ c2
        ∧ (c2 : Int) < g.num_cols := by omega
    simp only [snapshot_at, e1, e2, hin, hgd, and_self, decide_True, Bool.true_and,
      Int.toNat_ofNat, snapshot_getD, if_true, cell_at]
    cases (g.cells.getD (r2 * g.num_cols + c2) default).alive <;> rfl
  · have hout := h2 hgd
    simp only [snapshot_at, hout, hgd, decide_False, Bool.false_and, if_false]
    rfl

/-- The closed form of the code's count is the clamped count on the snapshot. -/
theorem neighbor_sum_eq_clamped (g : Game) (r c : Nat) (hr : r < g.num_rows)
    (hc : c < g.num_cols) :
    neighbor_sum g r c = clamped_count g.num_rows g.num_cols (alive_snapshot g) r c := by
  unfold clamped_count neighbor_sum
  rw [neighbor_offsets_eq, ← List.countP_eq_length_filter]
  simp only [List.countP_cons, List.countP_nil]
  rw [summand_eq g r c (-1) (-1) (r - 1) (c - 1) (0 < r ∧ 0 < c) (by omega) (by omega),
    summand_eq g r c (-1) 0 (r - 1) c (0 < r) (by omega) (by omega),
    summand_eq g r c (-1) 1 (r - 1) (c + 1) (0 < r ∧ c < g.num_cols - 1) (by omega) (by omega),
    summand_eq g r c 0 (-1) r (c - 1) (0 < c) (by omega) (by omega),
    summand_eq g r c 0 1 r (c + 1) (c < g.num_cols - 1) (by omega) (by omega),
    summand_eq g r c 1 (-1) (r + 1) (c - 1) (r < g.num_rows - 1 ∧ 0 < c) (by omega) (by omega),
    summand_eq g r c 1 0 (r + 1) c (r < g.num_rows - 1) (by omega) (by omega),
    summand_eq g r c 1 1 (r + 1) (c + 1) (r < g.num_rows - 1 ∧ c < g.num_cols - 1)
      (by omega) (by omega)]
  omega

/-! ## Facts about grids and bounds -/

theorem guarded_bit_le (p : Prop) [Decidable p] (b : Bool) :
    (if p then b.toNat else 0) ≤ 1 := by
  split
  · cases b <;> decide
  · omega

theorem neighbor_sum_le (g : Game) (r c : Nat) : neighbor_sum g r c ≤ 8 := by
  unfold neighbor_sum
  have h1 := guarded_bit_le (0 < r ∧ 0 < c) (cell_at g (r - 1) (c - 1)).alive
  have h2 := guarded_bit_le (0 < r) (cell_at g (r - 1) c).alive
  have h3 := guarded_bit_le (0 < r ∧ c < g.num_cols - 1) (cell_at g (r - 1) (c + 1)).alive
  have h4 := guarded_bit_le (0 < c) (cell_at g r (c - 1)).alive
  have h5 := guarded_bit_le (c < g.num_cols - 1) (cell_at g r (c + 1)).alive
  have h6 := guarded_bit_le (r < g.num_rows - 1 ∧ 0 < c) (cell_at g (r + 1) (c - 1)).alive
  have h7 := guarded_bit_le (r < g.num_rows - 1) (cell_at g (r + 1) c).alive
  have h8 := guarded_bit_le (r < g.num_rows - 1 ∧ c < g.num_cols - 1)
    (cell_at g (r + 1) (c + 1)).alive
  generalize (if 0 < r ∧ 0 < c then (cell_at g (r - 1) (c - 1)).alive.toNat else 0) = t1 at *
  generalize (if 0 < r then (cell_at g (r - 1) c).alive.toNat else 0) = t2 at *
  generalize (if 0 < r ∧ c < g.num_cols - 1 then (cell_at g (r - 1) (c + 1)).alive.toNat
    else 0) = t3 at *
  generalize (if 0 < c then (cell_at g r (c - 1)).alive.toNat else 0) = t4 at *
  generalize (if c < g.num_cols - 1 then (cell_at g r (c + 1)).alive.toNat else 0) = t5 at *
  generalize (if r < g.num_rows - 1 ∧ 0 < c then (cell_at g (r + 1) (c - 1)).alive.toNat
    else 0) = t6 at *
  generalize (if r < g.num_rows - 1 then (cell_at g (r + 1) c).alive.toNat else 0) = t7 at *
  generalize (if r < g.num_rows - 1 ∧ c < g.num_cols - 1
    then (cell_at g (r + 1) (c + 1)).alive.toNat else 0) = t8 at *
  omega

theorem div_mod_of_eq (cols i r c : Nat) (hc : c < cols) (h : i = r * cols + c) :
    i / cols = r ∧ i % cols = c := by
  subst h
  have hpos : 0 < cols := by omega
  constructor
  · rw [Nat.add_comm, Nat.add_mul_div_right _ _ hpos, Nat.div_eq_of_lt hc, Nat.zero_add]
  · rw [Nat.add_comm, Nat.add_mul_mod_self_right, Nat.mod_eq_of_lt hc]

theorem index_position (rows cols i : Nat) (h : i < rows * cols) :
    i / cols < rows ∧ i % cols < cols := by
  have hpos : 0 < cols := by
    by_contra hn
    have : cols = 0 := by omega
    subst this
    simp at h
  exact ⟨(Nat.div_lt_iff_lt_mul hpos).2 h, Nat.mod_lt _ hpos⟩

theorem is_grid_in_range (g : Game) (hg : g.is_grid) : g.in_range := by
  intro i hi
  obtain ⟨⟨_, _, _, hn, hlen⟩, hpos⟩ := hg
  obtain ⟨e1, e2⟩ := hpos i hi
  rw [e1, e2]
  exact index_position _ _ _ (by omega)

/-- In a grid the cell at position `(r, c)` is the element `r * num_cols + c` of
the array, and it stores `(r, c)`. -/
theorem is_grid_cell_at (g : Game) (hg : g.is_grid) (r c : Nat) (hr : r < g.num_rows)
    (hc : c < g.num_cols) :
    g.cells[r * g.num_cols + c]? = some (cell_at g r c)
      ∧ (cell_at g r c).row = r ∧ (cell_at g r c).col = c := by
  obtain ⟨⟨_, _, _, hn, hlen⟩, hpos⟩ := hg
  have hl : r * g.num_cols + c < g.cells.length := by
    have := idx_lt hr hc
    omega
  have hc_at : cell_at g r c = g.cells[r * g.num_cols + c] := by
    unfold cell_at
    simp [List.getD_eq_getElem?_getD, List.getElem?_eq_getElem hl]
  obtain ⟨e1, e2⟩ := hpos _ hl
  obtain ⟨d1, d2⟩ := div_mod_of_eq g.num_cols _ r c hc rfl
  rw [hc_at]
  exact ⟨List.getElem?_eq_getElem hl, by rw [e1, d1], by rw [e2, d2]⟩

theorem staged_value_eq_rule_table (a : Bool) (n : Nat) : staged_value a n = rule_table a n := by
  unfold staged_value
  cases a
  · by_cases h : n = 3
    · subst h
      rfl
    · have : (n == 3) = false := by simpa using h
      simp only [this]
      unfold rule_table
      split <;> simp_all
  · match n with
    | 0 => rfl
    | 1 => rfl
    | 2 => rfl
    | 3 => rfl
    | k + 4 => rfl

/-- Snapshot form of `next_generation_eq` for grids. -/
theorem next_generation_snapshot (g : Game) (hg : g.is_grid) :
    ∃ g2, next_generation g = some g2
      ∧ alive_snapshot g2 = snapshot_step g.num_rows g.num_cols (alive_snapshot g) := by
  refine ⟨_, next_generation_eq g hg.1 (is_grid_in_range g hg), ?_⟩
  obtain ⟨⟨_, _, _, hn, hlen⟩, hpos⟩ := hg
  apply List.ext_getElem?
  intro i
  unfold snapshot_step alive_snapshot
  simp only [List.map_map, List.getElem?_map, List.length_map]
  by_cases hi : i < g.cells.length
  · rw [List.getElem?_eq_getElem hi, List.getElem?_range (by omega)]
    obtain ⟨e1, e2⟩ := hpos i hi
    obtain ⟨b1, b2⟩ := index_position g.num_rows g.num_cols i (by omega)
    simp only [Option.map_some', Function.comp_apply, evolved, e1, e2,
      staged_value_eq_rule_table, neighbor_sum_eq_clamped g _ _ b1 b2]
    simp [alive_snapshot, List.getD_eq_getElem?_getD, List.getElem?_eq_getElem hi]
  · rw [List.getElem?_eq_none (by omega), List.getElem?_eq_none (by simp; omega)]
    rfl

theorem guarded_bit_le_guard (p : Prop) [Decidable p] (b : Bool) :
    (if p then b.toNat else 0) ≤ (if p then 1 else 0) := by
  split
  · cases b <;> decide
  · omega

/-- The count is at most the number of guards that hold. -/
theorem neighbor_sum_le_guards (g : Game) (r c : Nat) :
    neighbor_sum g r c ≤
      0
      + (if 0 < r ∧ 0 < c then 1 else 0)
      + (if 0 < r then 1 else 0)
      + (if 0 < r ∧ c < g.num_cols - 1 then 1 else 0)
      + (if 0 < c then 1 else 0)
      + (if c < g.num_cols - 1 then 1 else 0)
      + (if r < g.num_rows - 1 ∧ 0 < c then 1 else 0)
      + (if r < g.num_rows - 1 then 1 else 0)
      + (if r < g.num_rows - 1 ∧ c < g.num_cols - 1 then 1 else 0) := by
  unfold neighbor_sum
  exact Nat.add_le_add (Nat.add_le_add (Nat.add_le_add (Nat.add_le_add (Nat.add_le_add
    (Nat.add_le_add (Nat.add_le_add (Nat.add_le_add (Nat.le_refl 0)
    (guarded_bit_le_guard _ _)) (guarded_bit_le_guard _ _)) (guarded_bit_le_guard _ _))
    (guarded_bit_le_guard _ _)) (guarded_bit_le_guard _ _)) (guarded_bit_le_guard _ _))
    (guarded_bit_le_guard _ _)) (guarded_bit_le_guard _ _)

/-- Every event of the trace is safe on a sized grid, for a position inside it. -/
theorem neighbor_trace_safe (g : Game) (hg : g.sized) (r c : Nat) (hr : r < g.num_rows)
    (hc : c < g.num_cols) :
    ∀ e, e ∈ neighbor_trace g r c → e.safe g.num_cells := by
  obtain ⟨_, _, _, hn, _⟩ := hg
  have i1 : ¬ (0 < r ∧ 0 < c) ∨ (r - 1) * g.num_cols + (c - 1) < g.num_rows * g.num_cols :=
    Decidable.not_or_of_imp fun _ => idx_lt (by omega) (by omega)
  have i2 : ¬ (0 < r) ∨ (r - 1) * g.num_cols + c < g.num_rows * g.num_cols :=
    Decidable.not_or_of_imp fun _ => idx_lt (by omega) (by omega)
  have i3 : ¬ (0 < r ∧ c < g.num_cols - 1)
      ∨ (r - 1) * g.num_cols + (c + 1) < g.num_rows * g.num_cols :=
    Decidable.not_or_of_imp fun _ => idx_lt (by omega) (by omega)
  have i4 : ¬ (0 < c) ∨ r * g.num_cols + (c - 1) < g.num_rows * g.num_cols :=
    Decidable.not_or_of_imp fun _ => idx_lt (by omega) (by omega)
  have i5 : ¬ (c < g.num_cols - 1) ∨ r * g.num_cols + (c + 1) < g.num_rows * g.num_cols :=
    Decidable.not_or_of_imp fun _ => idx_lt (by omega) (by omega)
  have i6 : ¬ (r < g.num_rows - 1 ∧ 0 < c)
      ∨ (r + 1) * g.num_cols + (c - 1) < g.num_rows * g.num_cols :=
    Decidable.not_or_of_imp fun _ => idx_lt (by omega) (by omega)
  have i7 : ¬ (r < g.num_rows - 1) ∨ (r + 1) * g.num_cols + c < g.num_rows * g.num_cols :=
    Decidable.not_or_of_imp fun _ => idx_lt (by omega) (by omega)
  have i8 : ¬ (r < g.num_rows - 1 ∧ c < g.num_cols - 1)
      ∨ (r + 1) * g.num_cols + (c + 1) < g.num_rows * g.num_cols :=
    Decidable.not_or_of_imp fun _ => idx_lt (by omega) (by omega)
  unfold neighbor_trace
  by_cases c1 : 0 < r <;> by_cases c2 : 0 < c <;>
  by_cases c3 : c < g.num_cols - 1 <;> by_cases c4 : r < g.num_rows - 1 <;>
  simp only [c1, c2, c3, c4, if_true, if_false, List.append_nil, List.nil_append,
    List.cons_append, List.append_assoc, List.forall_mem_cons, List.mem_cons, List.mem_singleton,
    forall_eq_or_imp, forall_eq, Event.safe, hn, List.not_mem_nil, false_implies, implies_true,
    and_true] <;>
  omega

/-! ## Two-phase update and the rule table -/

/-- C1 (two-phase update): on every grid, whatever the incoming `next` values,
`next_generation` returns and the new `alive` array is the one computed from a
read-only snapshot of the old `alive` array: the new value of cell `i` is the
Life rule applied to its old value and to the clamped neighbour count of
position `(i / num_cols, i % num_cols)` in the old snapshot. -/
theorem next_generation_two_phase (g : Game) (hg : g.is_grid) :
    ∃ g2, next_generation g = some g2
      ∧ g2.cells.length = g.num_cells
      ∧ alive_snapshot g2 = snapshot_step g.num_rows g.num_cols (alive_snapshot g)
      ∧ ∀ i, i < g.num_cells →
          (alive_snapshot g2).getD i false
            = rule_table ((alive_snapshot g).getD i false)
                (clamped_count g.num_rows g.num_cols (alive_snapshot g)
                  (i / g.num_cols) (i % g.num_cols)) := by
  obtain ⟨g2, h1, h2⟩ := next_generation_snapshot g hg
  have hlen : (alive_snapshot g).length = g.num_cells := by
    simp [alive_snapshot, hg.1.2.2.2.2]
  refine ⟨g2, h1, ?_, h2, ?_⟩
  · have : (alive_snapshot g2).length = g.num_cells := by
      rw [h2]
      simp [snapshot_step, hlen]
    simpa [alive_snapshot] using this
  · intro i hi
    rw [h2]
    simp only [snapshot_step, List.getD_eq_getElem?_getD, List.getElem?_map,
      List.getElem?_range (show i < (alive_snapshot g).length by omega), Option.map_some',
      Option.getD_some]

theorem next_generation_two_phase_witness :
    blinker.is_grid ∧ ∃ g2, next_generation blinker = some g2
      ∧ g2.cells.length = blinker.num_cells
      ∧ alive_snapshot g2
          = snapshot_step blinker.num_rows blinker.num_cols (alive_snapshot blinker)
      ∧ ∀ i, i < blinker.num_cells →
          (alive_snapshot g2).getD i false
            = rule_table ((alive_snapshot blinker).getD i false)
                (clamped_count blinker.num_rows blinker.num_cols (alive_snapshot blinker)
                  (i / blinker.num_cols) (i % blinker.num_cols)) :=
  ⟨by decide, next_generation_two_phase blinker (by decide)⟩

/-- The staged expression, read as the five rows of the rule table. -/
theorem staged_value_rows (a : Bool) (n : Nat) :
    (a = true → (n = 0 ∨ n = 1) → staged_value a n = false)
    ∧ (a = true → (n = 2 ∨ n = 3) → staged_value a n = true)
    ∧ (a = true → 4 ≤ n → staged_value a n = false)
    ∧ (a = false → n = 3 → staged_value a n = true)
    ∧ (a = false → n ≠ 3 → staged_value a n = false)
    ∧ staged_value a n = (if a then decide (n = 2 ∨ n = 3) else decide (n = 3)) := by
  unfold staged_value
  cases a
  · simp [beq_eq_decide]
  · refine ⟨?_, ?_, ?_, by simp, by simp, ?_⟩
    · intro _ h
      rcases h with h | h <;> subst h <;> rfl
    · intro _ h
      rcases h with h | h <;> subst h <;> rfl
    · intro _ h
      have h2 : (n == 2) = false := by simp; omega
      have h3 : (n == 3) = false := by simp; omega
      simp [h2, h3]
    · by_cases h2 : n = 2 <;> by_cases h3 : n = 3 <;> simp [h2, h3]

/-- C2 (rule table): for every cell `i` of a grid, with `n` the value that
`sum_of_neighbors` returns for it (`n ≤ 8`), the value staged in `next` by the
first loop of `next_generation` is the value committed to `alive` by the whole
call, and it is: alive with `n ∈ {0, 1}` dead; alive with `n ∈ {2, 3}` alive;
alive with `n ≥ 4` dead; dead with `n = 3` alive; dead with `n ≠ 3` dead. -/
theorem next_generation_rule_table (g : Game) (hg : g.is_grid) (i : Nat)
    (hi : i < g.num_cells) :
    ∃ cell n gs cs g2 c2,
      g.cells[i]? = some cell
      ∧ ((sum_of_neighbors g cell).run).map Prod.fst = some n ∧ n ≤ 8
      ∧ (List.range g.num_cells).foldlM next_generation_stage g = some gs
      ∧ gs.cells[i]? = some cs
      ∧ next_generation g = some g2 ∧ g2.cells[i]? = some c2
      ∧ cs.next = c2.alive
      ∧ (cell.alive = true → (n = 0 ∨ n = 1) → c2.alive = false)
      ∧ (cell.alive = true → (n = 2 ∨ n = 3) → c2.alive = true)
      ∧ (cell.alive = true → 4 ≤ n → c2.alive = false)
      ∧ (cell.alive = false → n = 3 → c2.alive = true)
      ∧ (cell.alive = false → n ≠ 3 → c2.alive = false)
      ∧ c2.alive = (if cell.alive then decide (n = 2 ∨ n = 3) else decide (n = 3)) := by
  have hin := is_grid_in_range g hg
  have hlen : i < g.cells.length := by
    rw [hg.1.2.2.2.2]
    exact hi
  have hpos := hin i hlen
  have hget : g.cells[i]? = some g.cells[i] := List.getElem?_eq_getElem hlen
  refine ⟨g.cells[i], neighbor_sum g g.cells[i].row g.cells[i].col, _, staged g g.cells[i], _,
    evolved g g.cells[i], hget, ?_, neighbor_sum_le g _ _, stage_loop g hg.1 hin, ?_,
    next_generation_eq g hg.1 hin, ?_, rfl, ?_⟩
  · rw [sum_of_neighbors_run g _ hg.1 hpos.1 hpos.2]
    rfl
  · simp only [List.getElem?_map, hget, Option.map_some']
  · simp only [List.getElem?_map, hget, Option.map_some']
  · exact staged_value_rows g.cells[i].alive (neighbor_sum g g.cells[i].row g.cells[i].col)

theorem next_generation_rule_table_witness :
    blinker.is_grid ∧ 4 < blinker.num_cells ∧ ∃ cell n gs cs g2 c2,
      blinker.cells[4]? = some cell
      ∧ ((sum_of_neighbors blinker cell).run).map Prod.fst = some n ∧ n ≤ 8
      ∧ (List.range blinker.num_cells).foldlM next_generation_stage blinker = some gs
      ∧ gs.cells[4]? = some cs
      ∧ next_generation blinker = some g2 ∧ g2.cells[4]? = some c2
      ∧ cs.next = c2.alive
      ∧ (cell.alive = true → (n = 0 ∨ n = 1) → c2.alive = false)
      ∧ (cell.alive = true → (n = 2 ∨ n = 3) → c2.alive = true)
      ∧ (cell.alive = true → 4 ≤ n → c2.alive = false)
      ∧ (cell.alive = false → n = 3 → c2.alive = true)
      ∧ (cell.alive = false → n ≠ 3 → c2.alive = false)
      ∧ c2.alive = (if cell.alive then decide (n = 2 ∨ n = 3) else decide (n = 3)) :=
  ⟨by decide, by decide, next_generation_rule_table blinker (by decide) 4 (by decide)⟩

/-! ## The neighbour count: clamping, border bounds, memory safety -/

/-- C3 (edge-clamped neighbour count): in a grid, for the cell at any position
`(r, c)`, `sum_of_neighbors` returns the number of alive cells among the
positions `(r + dr, c + dc)`, `dr, dc ∈ {-1, 0, 1}` not both zero, that lie
inside the grid (no wraparound, the cell itself not counted); the result is at
most 8; and for a cell not on an edge it is the sum of the `alive` values of
all eight adjacent cells. -/
theorem sum_of_neighbors_clamped (g : Game) (hg : g.is_grid) (r c : Nat)
    (hr : r < g.num_rows) (hc : c < g.num_cols) :
    ∃ cell n,
      g.cells[r * g.num_cols + c]? = some cell ∧ cell.row = r ∧ cell.col = c
      ∧ ((sum_of_neighbors g cell).run).map Prod.fst = some n
      ∧ n = clamped_count g.num_rows g.num_cols (alive_snapshot g) r c
      ∧ n ≤ 8
      ∧ (0 < r → r < g.num_rows - 1 → 0 < c → c < g.num_cols - 1 →
          n = (cell_at g (r - 1) (c - 1)).alive.toNat + (cell_at g (r - 1) c).alive.toNat
            + (cell_at g (r - 1) (c + 1)).alive.toNat + (cell_at g r (c - 1)).alive.toNat
            + (cell_at g r (c + 1)).alive.toNat + (cell_at g (r + 1) (c - 1)).alive.toNat
            + (cell_at g (r + 1) c).alive.toNat + (cell_at g (r + 1) (c + 1)).alive.toNat) := by
  obtain ⟨hget, e1, e2⟩ := is_grid_cell_at g hg r c hr hc
  refine ⟨cell_at g r c, neighbor_sum g r c, hget, e1, e2, ?_,
    neighbor_sum_eq_clamped g r c hr hc, neighbor_sum_le g r c, ?_⟩
  · rw [sum_of_neighbors_run g _ hg.1 (by rw [e1]; exact hr) (by rw [e2]; exact hc), e1, e2]
    rfl
  · intro c1 c4 c2 c3
    unfold neighbor_sum
    simp only [c1, c2, c3, c4, and_self, if_true, Nat.zero_add]

theorem sum_of_neighbors_clamped_witness :
    blinker.is_grid ∧ 1 < blinker.num_rows ∧ 1 < blinker.num_cols ∧ ∃ cell n,
      blinker.cells[1 * blinker.num_cols + 1]? = some cell ∧ cell.row = 1 ∧ cell.col = 1
      ∧ ((sum_of_neighbors blinker cell).run).map Prod.fst = some n
      ∧ n = clamped_count blinker.num_rows blinker.num_cols (alive_snapshot blinker) 1 1
      ∧ n ≤ 8
      ∧ (0 < 1 → 1 < blinker.num_rows - 1 → 0 < 1 → 1 < blinker.num_cols - 1 →
          n = (cell_at blinker (1 - 1) (1 - 1)).alive.toNat
            + (cell_at blinker (1 - 1) 1).alive.toNat
            + (cell_at blinker (1 - 1) (1 + 1)).alive.toNat
            + (cell_at blinker 1 (1 - 1)).alive.toNat
            + (cell_at blinker 1 (1 + 1)).alive.toNat
            + (cell_at blinker (1 + 1) (1 - 1)).alive.toNat
            + (cell_at blinker (1 + 1) 1).alive.toNat
            + (cell_at blinker (1 + 1) (1 + 1)).alive.toNat) :=
  ⟨by decide, by decide, by decide,
    sum_of_neighbors_clamped blinker (by decide) 1 1 (by decide) (by decide)⟩

/-- C4 (neighbour bounds at the border): in a grid, `sum_of_neighbors` returns
at most 3 for a corner cell and at most 5 for an edge cell that is not a
corner, whatever the alive pattern; grids with a single row or column included. -/
theorem sum_of_neighbors_border (g : Game) (hg : g.is_grid) (r c : Nat)
    (hr : r < g.num_rows) (hc : c < g.num_cols) :
    ∃ cell n,
      g.cells[r * g.num_cols + c]? = some cell ∧ cell.row = r ∧ cell.col = c
      ∧ ((sum_of_neighbors g cell).run).map Prod.fst = some n
      ∧ (((r = 0 ∨ r = g.num_rows - 1) ∧ (c = 0 ∨ c = g.num_cols - 1)) → n ≤ 3)
      ∧ ((r = 0 ∨ r = g.num_rows - 1 ∨ c = 0 ∨ c = g.num_cols - 1) → n ≤ 5) := by
  obtain ⟨hget, e1, e2⟩ := is_grid_cell_at g hg r c hr hc
  refine ⟨cell_at g r c, neighbor_sum g r c, hget, e1, e2, ?_, ?_⟩
  · rw [sum_of_neighbors_run g _ hg.1 (by rw [e1]; exact hr) (by rw [e2]; exact hc), e1, e2]
    rfl
  · have hb := neighbor_sum_le_guards g r c
    by_cases c1 : 0 < r <;> by_cases c2 : 0 < c <;>
    by_cases c3 : c < g.num_cols - 1 <;> by_cases c4 : r < g.num_rows - 1 <;>
    simp only [c1, c2, c3, c4, and_self, and_true, true_and, and_false, false_and, if_true,
      if_false] at hb <;>
    omega

theorem sum_of_neighbors_border_witness :
    blinker.is_grid ∧ 0 < blinker.num_rows ∧ 1 < blinker.num_cols ∧ ∃ cell n,
      blinker.cells[0 * blinker.num_cols + 1]? = some cell ∧ cell.row = 0 ∧ cell.col = 1
      ∧ ((sum_of_neighbors blinker cell).run).map Prod.fst = some n
      ∧ (((0 = 0 ∨ 0 = blinker.num_rows - 1) ∧ (1 = 0 ∨ 1 = blinker.num_cols - 1)) → n ≤ 3)
      ∧ ((0 = 0 ∨ 0 = blinker.num_rows - 1 ∨ 1 = 0 ∨ 1 = blinker.num_cols - 1) → n ≤ 5) :=
  ⟨by decide, by decide, by decide,
    sum_of_neighbors_border blinker (by decide) 0 1 (by decide) (by decide)⟩

/-- C5 (no out-of-bounds access): on a grid of `num_rows x num_cols` cells whose
cells all store a row below `num_rows` and a column below `num_cols`,
`sum_of_neighbors` called on any cell of the array returns, every index it
reads through `CELL` is below `num_cells`, and none of the `size_t`
subtractions it evaluates (`row - 1`, `col - 1`, `num_rows - 1`,
`num_cols - 1`) wraps below zero.  A grid that has a cell has
`num_rows, num_cols ≥ 1`. -/
theorem sum_of_neighbors_in_bounds (g : Game) (hs : g.sized) (hin : g.in_range) (i : Nat)
    (cell : Cell) (hcell : g.cells[i]? = some cell) :
    1 ≤ g.num_rows ∧ 1 ≤ g.num_cols ∧
    ∃ n log, (sum_of_neighbors g cell).run = some (n, log)
      ∧ ∀ e, e ∈ log → e.safe g.num_cells := by
  obtain ⟨h1, h2⟩ := getElem?_of_in_range g hin i cell hcell
  exact ⟨by omega, by omega, _, _, sum_of_neighbors_run g cell hs h1 h2,
    neighbor_trace_safe g hs _ _ h1 h2⟩

theorem sum_of_neighbors_in_bounds_witness :
    blinker.sized ∧ blinker.in_range ∧ blinker.cells[8]? = some ⟨2, 2, false, false⟩ ∧
    1 ≤ blinker.num_rows ∧ 1 ≤ blinker.num_cols ∧
    ∃ n log, (sum_of_neighbors blinker ⟨2, 2, false, false⟩).run = some (n, log)
      ∧ ∀ e, e ∈ log → e.safe blinker.num_cells :=
  ⟨by decide, by decide, by decide,
    sum_of_neighbors_in_bounds blinker (by decide) (by decide) 8 ⟨2, 2, false, false⟩
      (by decide)⟩

/-! ## The frame of `next_generation` -/

theorem map_set_same {β : Type} (f : Cell → β) (l : List Cell) (i : Nat) (x y : Cell)
    (h : l[i]? = some x) (hf : f y = f x) : (l.set i y).map f = l.map f := by
  apply List.ext_getElem?
  intro j
  rw [List.getElem?_map, List.getElem?_map, List.getElem?_set]
  by_cases hj : i = j
  · subst hj
    have hi : i < l.length := by
      by_contra hn
      rw [List.getElem?_eq_none (by omega)] at h
      cases h
    simp [hi, h, hf]
  · simp [hj]

theorem stage_frame (g : Game) (i : Nat) (g2 : Game) (h : next_generation_stage g i = some g2) :
    frame_of g2 = frame_of g := by
  unfold next_generation_stage at h
  cases hc : g.cells[i]? with
  | none => simp [hc] at h
  | some cell =>
    cases hs : (sum_of_neighbors g cell).run with
    | none => simp [hc, hs] at h
    | some p =>
      simp only [hc, hs, Option.bind_eq_bind, Option.some_bind, Option.pure_def,
        Option.some.injEq] at h
      subst h
      unfold frame_of
      dsimp only
      rw [map_set_same (fun cell => (cell.row, cell.col)) g.cells i cell _ hc]
      rfl

theorem commit_frame (g : Game) (i : Nat) (g2 : Game)
    (h : next_generation_commit g i = some g2) : frame_of g2 = frame_of g := by
  unfold next_generation_commit at h
  cases hc : g.cells[i]? with
  | none => simp [hc] at h
  | some cell =>
    simp only [hc, Option.bind_eq_bind, Option.some_bind, Option.pure_def,
      Option.some.injEq] at h
    subst h
    unfold frame_of
    dsimp only
    rw [map_set_same (fun cell => (cell.row, cell.col)) g.cells i cell _ hc]
    rfl

/-- What every successful round of a loop body preserves, the whole loop preserves. -/
theorem foldlM_preserves {β : Type} (f : Game → β) (body : Game → Nat → Option Game)
    (hb : ∀ g i g2, body g i = some g2 → f g2 = f g) :
    ∀ (l : List Nat) (g g2 : Game), l.foldlM body g = some g2 → f g2 = f g := by
  intro l
  induction l with
  | nil =>
    intro g g2 h
    simp only [List.foldlM_nil, Option.pure_def, Option.some.injEq] at h
    rw [h]
  | cons a l ih =>
    intro g g2 h
    rw [List.foldlM_cons] at h
    cases hs : body g a with
    | none => simp [hs] at h
    | some g1 =>
      simp only [hs, Option.bind_eq_bind, Option.some_bind] at h
      rw [ih g1 g2 h, hb g a g1 hs]

theorem next_generation_frame (g g2 : Game) (h : next_generation g = some g2) :
    frame_of g2 = frame_of g := by
  unfold next_generation at h
  cases h1 : (List.range g.num_cells).foldlM next_generation_stage g with
  | none => simp [h1] at h
  | some g1 =>
    simp only [h1, Option.bind_eq_bind, Option.some_bind] at h
    cases h2 : (List.range g1.num_cells).foldlM next_generation_commit g1 with
    | none => simp [h2] at h
    | some g3 =>
      simp only [h2, Option.some_bind, Option.pure_def, Option.some.injEq] at h
      subst h
      rw [foldlM_preserves frame_of next_generation_commit commit_frame _ _ _ h2,
        foldlM_preserves frame_of next_generation_stage stage_frame _ _ _ h1]

/-- C10 (frame of the transition): `next_generation` changes only the `alive`
and `next` fields.  Whenever a call returns, `num_rows`, `num_cols`,
`num_cells`, the resize flag, the number of cells and the stored row and column
of every cell are what they were before; and on a sized grid whose cells store
positions inside the grid the call does return. -/
theorem next_generation_frame_effect (g : Game) :
    (g.sized → g.in_range → ∃ g2, next_generation g = some g2)
    ∧ ∀ g2, next_generation g = some g2 →
        g2.num_rows = g.num_rows ∧ g2.num_cols = g.num_cols ∧ g2.num_cells = g.num_cells
        ∧ g2.win_changed = g.win_changed
        ∧ g2.cells.length = g.cells.length
        ∧ ∀ (i : Nat) (cell cell2 : Cell), g.cells[i]? = some cell → g2.cells[i]? = some cell2 →
            cell2.row = cell.row ∧ cell2.col = cell.col := by
  refine ⟨fun hs hin => ⟨_, next_generation_eq g hs hin⟩, ?_⟩
  intro g2 h
  have hf := next_generation_frame g g2 h
  unfold frame_of at hf
  simp only [Prod.mk.injEq] at hf
  obtain ⟨h1, h2, h3, h4, h5⟩ := hf
  refine ⟨h2, h3, h4, h1, ?_, ?_⟩
  · have := congrArg List.length h5
    simpa using this
  · intro i cell cell2 hc hc2
    have := congrArg (fun l => l[i]?) h5
    simp only [List.getElem?_map, hc, hc2, Option.map_some', Option.some.injEq,
      Prod.mk.injEq] at this
    exact this

theorem next_generation_frame_effect_witness :
    blinker.sized ∧ blinker.in_range ∧ ∃ g2, next_generation blinker = some g2
      ∧ g2.num_rows = blinker.num_rows ∧ g2.num_cols = blinker.num_cols
      ∧ g2.num_cells = blinker.num_cells
      ∧ g2.win_changed = blinker.win_changed
      ∧ g2.cells.length = blinker.cells.length
      ∧ ∀ (i : Nat) (cell cell2 : Cell), blinker.cells[i]? = some cell →
          g2.cells[i]? = some cell2 → cell2.row = cell.row ∧ cell2.col = cell.col := by
  obtain ⟨g2, h⟩ := (next_generation_frame_effect blinker).1 (by decide) (by decide)
  exact ⟨by decide, by decide, g2, h, (next_generation_frame_effect blinker).2 g2 h⟩

/-! ## Iterated generations -/

theorem evolved_is_grid (g : Game) (hg : g.is_grid) :
    ({ g with cells := g.cells.map (evolved g) } : Game).is_grid := by
  obtain ⟨⟨a, b, c, d, e⟩, hpos⟩ := hg
  refine ⟨⟨a, b, c, d, by simpa using e⟩, ?_⟩
  intro i hi
  have hi2 : i < g.cells.length := by simpa using hi
  simp only [List.getElem_map, evolved]
  exact hpos i hi2

/-- Running any number of generations on a grid returns a grid of the same
dimensions and size. -/
theorem generations_is_grid (k : Nat) :
    ∀ g : Game, g.is_grid → ∃ gk, generations k g = some gk ∧ gk.is_grid
      ∧ gk.num_rows = g.num_rows ∧ gk.num_cols = g.num_cols
      ∧ gk.num_cells = g.num_cells ∧ gk.cells.length = g.cells.length := by
  induction k with
  | zero =>
    intro g hg
    exact ⟨g, rfl, hg, rfl, rfl, rfl, rfl⟩
  | succ k ih =>
    intro g hg
    have h1 := next_generation_eq g hg.1 (is_grid_in_range g hg)
    obtain ⟨gk, h2, h3, h4, h5, h6, h7⟩ := ih _ (evolved_is_grid g hg)
    refine ⟨gk, ?_, h3, h4, h5, h6, ?_⟩
    · simp only [generations, h1, Option.some_bind]
      exact h2
    · simpa using h7

theorem cell_at_mem_or_default (g : Game) (r c : Nat) :
    cell_at g r c ∈ g.cells ∨ cell_at g r c = default := by
  unfold cell_at
  rw [List.getD_eq_getElem?_getD]
  by_cases h : r * g.num_cols + c < g.cells.length
  · left
    rw [List.getElem?_eq_getElem h]
    exact List.getElem_mem h
  · right
    rw [List.getElem?_eq_none (by omega)]
    rfl

theorem neighbor_sum_dead (g : Game) (hdead : ∀ cell, cell ∈ g.cells → cell.alive = false)
    (r c : Nat) : neighbor_sum g r c = 0 := by
  have h : ∀ r c, (cell_at g r c).alive = false := by
    intro r c
    rcases cell_at_mem_or_default g r c with h | h
    · exact hdead _ h
    · rw [h]
      rfl
  unfold neighbor_sum
  simp [h]

/-- C7 (the dead grid is a fixed point): for a grid of any size in which every
cell is dead and for every `k`, calling `next_generation` `k` times returns,
and in the resulting grid (of the same size) every cell is dead. -/
theorem dead_grid_stays_dead (g : Game) (hg : g.is_grid)
    (hdead : ∀ cell, cell ∈ g.cells → cell.alive = false) (k : Nat) :
    ∃ gk, generations k g = some gk ∧ gk.cells.length = g.cells.length
      ∧ ∀ cell, cell ∈ gk.cells → cell.alive = false := by
  induction k generalizing g with
  | zero => exact ⟨g, rfl, rfl, hdead⟩
  | succ k ih =>
    have h1 := next_generation_eq g hg.1 (is_grid_in_range g hg)
    have hd : ∀ cell, cell ∈ ({ g with cells := g.cells.map (evolved g) } : Game).cells →
        cell.alive = false := by
      intro cell hc
      simp only [List.mem_map] at hc
      obtain ⟨x, hx, rfl⟩ := hc
      simp only [evolved, neighbor_sum_dead g hdead, hdead x hx]
      rfl
    obtain ⟨gk, h2, h3, h4⟩ := ih _ (evolved_is_grid g hg) hd
    refine ⟨gk, ?_, ?_, h4⟩
    · simp only [generations, h1, Option.some_bind]
      exact h2
    · simpa using h3

theorem dead_grid_stays_dead_witness :
    dead_grid.is_grid ∧ (∀ cell, cell ∈ dead_grid.cells → cell.alive = false)
    ∧ ∃ gk, generations 3 dead_grid = some gk ∧ gk.cells.length = dead_grid.cells.length
      ∧ ∀ cell, cell ∈ gk.cells → cell.alive = false :=
  ⟨by decide, by decide, dead_grid_stays_dead dead_grid (by decide) (by decide) 3⟩

/-! ## The glider on a `5 x 5` grid -/

/-- The alive snapshot of a grid whose alive cells are given by a list of positions. -/
theorem snapshot_of_positions (g : Game) (hg : g.is_grid) (S : List (Nat × Nat))
    (hS : ∀ cell, cell ∈ g.cells → (cell.alive = true ↔ (cell.row, cell.col) ∈ S)) :
    alive_snapshot g = (List.range g.num_cells).map fun i =>
      decide ((i / g.num_cols, i % g.num_cols) ∈ S) := by
  obtain ⟨⟨_, _, _, hn, hlen⟩, hpos⟩ := hg
  apply List.ext_getElem?
  intro i
  unfold alive_snapshot
  simp only [List.getElem?_map]
  by_cases hi : i < g.cells.length
  · rw [List.getElem?_eq_getElem hi, List.getElem?_range (by omega)]
    have h := hS _ (List.getElem_mem hi)
    obtain ⟨e1, e2⟩ := hpos i hi
    rw [e1, e2] at h
    simp only [Option.map_some', Option.some.injEq]
    cases ha : g.cells[i].alive
    · rw [ha] at h
      simp only [Bool.false_eq_true, false_iff] at h
      simp [h]
    · rw [ha] at h
      simp only [true_iff] at h
      simp [h]
  · rw [List.getElem?_eq_none (by omega), List.getElem?_eq_none (by simp; omega)]
    rfl

theorem glider_snapshot_step :
    snapshot_step 5 5 ((List.range 25).map fun i => decide ((i / 5, i % 5) ∈ glider_seed))
      = (List.range 25).map fun i => decide ((i / 5, i % 5) ∈ glider_next) := by
  decide

/-- C6 (glider step): on every `5 x 5` grid whose alive cells are exactly
`(0,1), (1,2), (2,0), (2,1), (2,2)`, one call of `next_generation` returns a
grid with the same 25 positions whose alive cells are exactly
`(1,0), (1,2), (2,1), (2,2), (3,1)`. -/
theorem glider_first_step (g : Game) (hg : g.is_grid) (hr : g.num_rows = 5)
    (hc : g.num_cols = 5)
    (hseed : ∀ cell, cell ∈ g.cells → (cell.alive = true ↔ (cell.row, cell.col) ∈ glider_seed)) :
    ∃ g2, next_generation g = some g2
      ∧ g2.cells.map (fun cell => (cell.row, cell.col))
          = (List.range 25).map (fun i => (i / 5, i % 5))
      ∧ ∀ cell, cell ∈ g2.cells → (cell.alive = true ↔ (cell.row, cell.col) ∈ glider_next) := by
  obtain ⟨g2, h1, h2⟩ := next_generation_snapshot g hg
  have hn : g.num_cells = 25 := by rw [hg.1.2.2.2.1, hr, hc]
  have hsnap := snapshot_of_positions g hg glider_seed hseed
  rw [hsnap, hr, hc, hn, glider_snapshot_step] at h2
  have hfr := next_generation_frame g g2 h1
  unfold frame_of at hfr
  simp only [Prod.mk.injEq] at hfr
  obtain ⟨_, _, _, _, hp⟩ := hfr
  have hpos0 : g.cells.map (fun cell => (cell.row, cell.col))
      = (List.range 25).map (fun i => (i / 5, i % 5)) := by
    apply List.ext_getElem?
    intro i
    have hl : g.cells.length = 25 := by rw [hg.1.2.2.2.2, hn]
    simp only [List.getElem?_map]
    by_cases hi : i < 25
    · rw [List.getElem?_eq_getElem (by omega), List.getElem?_range hi]
      obtain ⟨e1, e2⟩ := hg.2 i (by omega)
      simp [e1, e2, hc]
    · rw [List.getElem?_eq_none (by omega), List.getElem?_eq_none (by simp; omega)]
      rfl
  rw [hpos0] at hp
  refine ⟨g2, h1, hp, ?_⟩
  intro cell hcell
  obtain ⟨i, hi, rfl⟩ := List.getElem_of_mem hcell
  have ha := congrArg (fun l => l[i]?) h2
  have hb := congrArg (fun l => l[i]?) hp
  have hi25 : i < 25 := by
    have := congrArg List.length hp
    simp at this
    omega
  simp only [alive_snapshot, List.getElem?_map, List.getElem?_eq_getElem hi, Option.map_some',
    List.getElem?_range hi25, Option.some.injEq, Prod.mk.injEq] at ha hb
  rw [ha, hb.1, hb.2]
  simp

theorem glider_first_step_witness :
    glider.is_grid ∧ glider.num_rows = 5 ∧ glider.num_cols = 5
    ∧ (∀ cell, cell ∈ glider.cells →
        (cell.alive = true ↔ (cell.row, cell.col) ∈ glider_seed))
    ∧ ∃ g2, next_generation glider = some g2
      ∧ g2.cells.map (fun cell => (cell.row, cell.col))
          = (List.range 25).map (fun i => (i / 5, i % 5))
      ∧ ∀ cell, cell ∈ g2.cells →
          (cell.alive = true ↔ (cell.row, cell.col) ∈ glider_next) :=
  ⟨by decide, rfl, rfl, by decide,
    glider_first_step glider (by decide) rfl rfl (by decide)⟩

/-! ## The initialisation loop of `start_game` -/

theorem seed_cell_step (g0 : Game) (R C : Nat) (rand : Nat → Nat) (hR : R < 65536)
    (hC : C < 65536) (k : Nat) (hk : k < R * C) (s : Seeding)
    (hinv : seeding_inv g0 R C rand k s) :
    ∃ s2, start_game_seed_cell rand s k = some s2 ∧ seeding_inv g0 R C rand (k + 1) s2 := by
  obtain ⟨h1, h2, h3, h4, h5, h6, h7, h8, h9⟩ := hinv
  have hCpos : 0 < C := by
    by_contra hn
    have : C = 0 := by omega
    subst this
    simp at hk
  have hRC : R * C < 65536 * 65536 := Nat.mul_lt_mul'' hR hC
  have hrow : s.row ≤ s.row * C := Nat.le_mul_of_pos_right _ hCpos
  -- the position after the wrap test
  have hwrap : ∃ row col, (if s.col = s.game.num_cols
        then { s with col := 0, row := (s.row + 1) % SIZE_MOD } else s)
      = { s with row := row, col := col } ∧ row * C + col = k ∧ col < C := by
    by_cases hcol : s.col = s.game.num_cols
    · refine ⟨s.row + 1, 0, ?_, ?_, hCpos⟩
      · have : (s.row + 1) % SIZE_MOD = s.row + 1 := by
          rw [SIZE_MOD_eq]
          omega
        simp only [hcol, if_true, this]
      · rw [h3] at hcol
        rw [Nat.add_mul, ← h6, hcol]
        omega
    · refine ⟨s.row, s.col, ?_, h6, ?_⟩
      · simp only [hcol, if_false]
      · rw [h3] at hcol
        omega
  obtain ⟨row, col, hw, hw1, hw2⟩ := hwrap
  obtain ⟨d1, d2⟩ := div_mod_of_eq C k row col hw2 hw1.symm
  have hlt : k < s.game.cells.length := by omega
  have hcolmod : (col + 1) % SIZE_MOD = col + 1 := by
    rw [SIZE_MOD_eq]
    omega
  unfold start_game_seed_cell
  simp only [hw, List.getElem?_eq_getElem hlt, Option.bind_eq_bind, Option.some_bind,
    Option.pure_def, hcolmod]
  refine ⟨_, rfl, h1, h2, h3, h4, by simp [h5], ?_, by simpa using hw2, by simpa using h8, ?_⟩
  · show row * C + (col + 1) = k + 1
    omega
  · intro j hj
    show (s.game.cells.set k _)[j]? = _
    rw [List.getElem?_set]
    by_cases hjk : k = j
    · subst hjk
      simp only [hlt, if_true, h5, d1, d2]
    · simp only [hjk, if_false]
      exact h9 j (by omega)

theorem seed_loop (g0 : Game) (R C : Nat) (rand : Nat → Nat) (hR : R < 65536)
    (hC : C < 65536) (s0 : Seeding) (h0 : seeding_inv g0 R C rand 0 s0) :
    ∀ k, k ≤ R * C → ∃ s, (List.range k).foldlM (start_game_seed_cell rand) s0 = some s
      ∧ seeding_inv g0 R C rand k s := by
  intro k
  induction k with
  | zero =>
    intro _
    exact ⟨s0, rfl, h0⟩
  | succ k ih =>
    intro hk
    obtain ⟨s, hs, hinv⟩ := ih (by omega)
    obtain ⟨s2, hs2, hinv2⟩ := seed_cell_step g0 R C rand hR hC k (by omega) s hinv
    refine ⟨s2, ?_, hinv2⟩
    rw [List.range_succ, List.foldlM_append, hs]
    simp [hs2]

/-- For every terminal size the initialisation of `start_game` returns, with
the dimensions of the terminal, one `rand()` call per cell, and the array
`seeded_cells`. -/
theorem start_game_init_run (g0 : Game) (R C : Nat) (rand : Nat → Nat) (hR : R < 65536)
    (hC : C < 65536) :
    ∃ s, start_game_init g0 R C rand = some s
      ∧ s.game = { win_changed := g0.win_changed, num_rows := R, num_cols := C,
                   num_cells := R * C, cells := seeded_cells R C rand }
      ∧ s.drawn = R * C := by
  have hRC : R * C < 65536 * 65536 := Nat.mul_lt_mul'' hR hC
  have hmod : (R * C) % SIZE_MOD = R * C := by
    rw [SIZE_MOD_eq]
    omega
  obtain ⟨s, hs, h1, h2, h3, h4, h5, _, _, h8, h9⟩ := seed_loop g0 R C rand hR hC
    ⟨{ win_changed := g0.win_changed, num_rows := R, num_cols := C, num_cells := R * C,
       cells := List.replicate (R * C) ⟨0, 0, false, false⟩ }, 0, 0, 0⟩
    ⟨rfl, rfl, rfl, rfl, rfl, by simp, by simp, by simp, by intro j hj; omega⟩ (R * C)
    (Nat.le_refl _)
  refine ⟨s, ?_, ?_, h5⟩
  · unfold start_game_init term_get_size
    simp only [hmod]
    exact hs
  · have hcells : s.game.cells = seeded_cells R C rand := by
      apply List.ext_getElem?
      intro j
      unfold seeded_cells
      by_cases hj : j < R * C
      · rw [h9 j hj, List.getElem?_map, List.getElem?_range hj]
        rfl
      · rw [List.getElem?_eq_none (by omega), List.getElem?_eq_none (by simp; omega)]
    cases hsg : s.game with
    | mk w nr nc n cs =>
      rw [hsg] at h1 h2 h3 h4 hcells
      simp only at h1 h2 h3 h4 hcells
      rw [h1, h2, h3, h4, hcells]

theorem seeded_is_grid (w : Bool) (R C : Nat) (rand : Nat → Nat) (hR : R < 65536)
    (hC : C < 65536) :
    ({ win_changed := w, num_rows := R, num_cols := C, num_cells := R * C,
       cells := seeded_cells R C rand } : Game).is_grid := by
  have hRC : R * C < 65536 * 65536 := Nat.mul_lt_mul'' hR hC
  refine ⟨⟨?_, ?_, ?_, rfl, by simp [seeded_cells]⟩, ?_⟩
  · rw [SIZE_MOD_eq]
    show R < _
    omega
  · rw [SIZE_MOD_eq]
    show C < _
    omega
  · rw [SIZE_MOD_eq]
    show R * C < _
    omega
  · intro i hi
    simp [seeded_cells]

/-! ## Invariants established by `start_game` and kept by `next_generation` -/

theorem generations_next_false (k : Nat) :
    ∀ g : Game, g.is_grid → (∀ cell, cell ∈ g.cells → cell.next = false) →
      ∃ gk, generations k g = some gk ∧ ∀ cell, cell ∈ gk.cells → cell.next = false := by
  induction k with
  | zero =>
    intro g _ h
    exact ⟨g, rfl, h⟩
  | succ k ih =>
    intro g hg _
    have h1 := next_generation_eq g hg.1 (is_grid_in_range g hg)
    obtain ⟨gk, h2, h3⟩ := ih _ (evolved_is_grid g hg) (by
      intro cell hc
      simp only [List.mem_map] at hc
      obtain ⟨x, _, rfl⟩ := hc
      rfl)
    refine ⟨gk, ?_, h3⟩
    simp only [generations, h1, Option.some_bind]
    exact h2

/-- C8 (staging field invariant): for every terminal size, after the
allocation and seeding done by `start_game` every cell has `next = false`, and
so has every cell after each of any number of `next_generation` calls that
follow; moreover one call of `next_generation` on any grid, whatever its
`next` values on entry, returns a grid in which every `next` is `false`. -/
theorem next_always_reset (g0 : Game) (R C : Nat) (rand : Nat → Nat) (hR : R < 65536)
    (hC : C < 65536) :
    (∃ s, start_game_init g0 R C rand = some s
      ∧ (∀ cell, cell ∈ s.game.cells → cell.next = false)
      ∧ ∀ k, ∃ gk, generations k s.game = some gk
          ∧ ∀ cell, cell ∈ gk.cells → cell.next = false)
    ∧ ∀ g : Game, g.sized → g.in_range →
        ∃ g2, next_generation g = some g2 ∧ ∀ cell, cell ∈ g2.cells → cell.next = false := by
  constructor
  · obtain ⟨s, hs, hgame, _⟩ := start_game_init_run g0 R C rand hR hC
    have hgrid : s.game.is_grid := by
      rw [hgame]
      exact seeded_is_grid _ R C rand hR hC
    have hnext : ∀ cell, cell ∈ s.game.cells → cell.next = false := by
      intro cell hc
      rw [hgame] at hc
      simp only [seeded_cells, List.mem_map] at hc
      obtain ⟨i, _, rfl⟩ := hc
      rfl
    exact ⟨s, hs, hnext, fun k => generations_next_false k s.game hgrid hnext⟩
  · intro g hs hin
    refine ⟨_, next_generation_eq g hs hin, ?_⟩
    intro cell hc
    simp only [List.mem_map] at hc
    obtain ⟨x, _, rfl⟩ := hc
    rfl

theorem next_always_reset_witness :
    2 < 65536 ∧ 3 < 65536 ∧
    (∃ s, start_game_init blinker 2 3 (fun k => k) = some s
      ∧ (∀ cell, cell ∈ s.game.cells → cell.next = false)
      ∧ ∀ k, ∃ gk, generations k s.game = some gk
          ∧ ∀ cell, cell ∈ gk.cells → cell.next = false)
    ∧ ∀ g : Game, g.sized → g.in_range →
        ∃ g2, next_generation g = some g2 ∧ ∀ cell, cell ∈ g2.cells → cell.next = false :=
  ⟨by decide, by decide, next_always_reset blinker 2 3 (fun k => k) (by decide) (by decide)⟩

/-- C9 (position invariant): for every terminal size `R x C`, the
initialisation loop of `start_game` returns with every cell at linear index
`i < R * C` storing `row = i / C` and `col = i % C` (so `row < R`, `col < C`),
and the same holds after any number of `next_generation` calls. -/
theorem positions_kept (g0 : Game) (R C : Nat) (rand : Nat → Nat) (hR : R < 65536)
    (hC : C < 65536) :
    ∃ s, start_game_init g0 R C rand = some s
      ∧ ∀ k, ∃ gk, generations k s.game = some gk
          ∧ gk.num_rows = R ∧ gk.num_cols = C ∧ gk.num_cells = R * C
          ∧ gk.cells.length = R * C
          ∧ ∀ i, i < R * C → ∃ cell, gk.cells[i]? = some cell
              ∧ cell.row = i / C ∧ cell.col = i % C ∧ cell.row < R ∧ cell.col < C := by
  obtain ⟨s, hs, hgame, _⟩ := start_game_init_run g0 R C rand hR hC
  have hgrid : s.game.is_grid := by
    rw [hgame]
    exact seeded_is_grid _ R C rand hR hC
  refine ⟨s, hs, ?_⟩
  intro k
  obtain ⟨gk, h1, h2, h3, h4, h5, h6⟩ := generations_is_grid k s.game hgrid
  rw [hgame] at h3 h4 h5 h6
  simp only [seeded_cells, List.length_map, List.length_range] at h3 h4 h5 h6
  refine ⟨gk, h1, h3, h4, h5, h6, ?_⟩
  intro i hi
  obtain ⟨e1, e2⟩ := h2.2 i (by omega)
  obtain ⟨b1, b2⟩ := index_position R C i hi
  refine ⟨gk.cells[i], List.getElem?_eq_getElem (by omega), ?_, ?_, ?_, ?_⟩
  · rw [e1, h4]
  · rw [e2, h4]
  · rw [e1, h4]
    exact b1
  · rw [e2, h4]
    exact b2

theorem positions_kept_witness :
    2 < 65536 ∧ 3 < 65536 ∧
    ∃ s, start_game_init blinker 2 3 (fun k => k) = some s
      ∧ ∀ k, ∃ gk, generations k s.game = some gk
          ∧ gk.num_rows = 2 ∧ gk.num_cols = 3 ∧ gk.num_cells = 2 * 3
          ∧ gk.cells.length = 2 * 3
          ∧ ∀ i, i < 2 * 3 → ∃ cell, gk.cells[i]? = some cell
              ∧ cell.row = i / 3 ∧ cell.col = i % 3 ∧ cell.row < 2 ∧ cell.col < 3 :=
  ⟨by decide, by decide, positions_kept blinker 2 3 (fun k => k) (by decide) (by decide)⟩

/-! ## Determinism of the sequence of generations -/

/-- The alive pattern after `k` generations is `snapshot_step` iterated `k`
times on the initial pattern. -/
theorem generations_snapshot (k : Nat) :
    ∀ g : Game, g.is_grid → ∃ gk, generations k g = some gk
      ∧ alive_snapshot gk
          = Nat.iterate (snapshot_step g.num_rows g.num_cols) k (alive_snapshot g) := by
  induction k with
  | zero =>
    intro g _
    exact ⟨g, rfl, rfl⟩
  | succ k ih =>
    intro g hg
    have h1 := next_generation_eq g hg.1 (is_grid_in_range g hg)
    obtain ⟨g2, h2, h3⟩ := next_generation_snapshot g hg
    rw [h1] at h2
    cases h2
    obtain ⟨gk, h4, h5⟩ := ih _ (evolved_is_grid g hg)
    refine ⟨gk, ?_, ?_⟩
    · simp only [generations, h1, Option.some_bind]
      exact h4
    · rw [h5, h3]
      rfl

/-- C11 (determinism): two grids with the same dimensions and the same alive
pattern have the same alive pattern after `k` calls of `next_generation`, for
every `k`; the pattern after `k` calls is a function of the initial pattern
and the dimensions only, namely `snapshot_step` iterated `k` times. -/
theorem generations_deterministic (g1 g2 : Game) (h1 : g1.is_grid) (h2 : g2.is_grid)
    (hr : g1.num_rows = g2.num_rows) (hc : g1.num_cols = g2.num_cols)
    (ha : alive_snapshot g1 = alive_snapshot g2) (k : Nat) :
    ∃ a b, generations k g1 = some a ∧ generations k g2 = some b
      ∧ alive_snapshot a = alive_snapshot b
      ∧ alive_snapshot a
          = Nat.iterate (snapshot_step g1.num_rows g1.num_cols) k (alive_snapshot g1) := by
  obtain ⟨a, e1, e2⟩ := generations_snapshot k g1 h1
  obtain ⟨b, e3, e4⟩ := generations_snapshot k g2 h2
  refine ⟨a, b, e1, e3, ?_, e2⟩
  rw [e2, e4, hr, hc, ha]

theorem generations_deterministic_witness :
    blinker.is_grid ∧ blinker_flagged.is_grid
    ∧ blinker.num_rows = blinker_flagged.num_rows
    ∧ blinker.num_cols = blinker_flagged.num_cols
    ∧ alive_snapshot blinker = alive_snapshot blinker_flagged
    ∧ ∃ a b, generations 4 blinker = some a ∧ generations 4 blinker_flagged = some b
      ∧ alive_snapshot a = alive_snapshot b
      ∧ alive_snapshot a
          = Nat.iterate (snapshot_step blinker.num_rows blinker.num_cols) 4
              (alive_snapshot blinker) :=
  ⟨by decide, by decide, rfl, rfl, by decide,
    generations_deterministic blinker blinker_flagged (by decide) (by decide) rfl rfl
      (by decide) 4⟩

/-! ## Terminal output -/

theorem printf_zd_small (v : Nat) (h : v ≤ 65536) : printf_zd v = decimal v := by
  unfold printf_zd
  rw [SIZE_MOD_eq]
  have : v < 18446744073709551616 / 2 := by omega
  simp only [this, if_true]

/-- C12 (cursor positioning): for 0-based `row` and `col`, each at most 65535,
`term_position_cursor` writes exactly ESC `[` decimal(row + 1) `;`
decimal(col + 1) `f` and nothing else. -/
theorem term_position_cursor_exact (row col : Nat) (hr : row ≤ 65535) (hc : col ≤ 65535) :
    term_position_cursor row col
      = [27, 91] ++ decimal (row + 1) ++ [59] ++ decimal (col + 1) ++ [102] := by
  have e1 : (row + 1) % SIZE_MOD = row + 1 := by
    rw [SIZE_MOD_eq]
    omega
  have e2 : (col + 1) % SIZE_MOD = col + 1 := by
    rw [SIZE_MOD_eq]
    omega
  unfold term_position_cursor
  rw [e1, e2, printf_zd_small _ (by omega), printf_zd_small _ (by omega)]

theorem term_position_cursor_exact_witness :
    23 ≤ 65535 ∧ 79 ≤ 65535
    ∧ decimal (23 + 1) = [50, 52] ∧ decimal (79 + 1) = [56, 48]
    ∧ term_position_cursor 23 79
      = [27, 91] ++ decimal (23 + 1) ++ [59] ++ decimal (79 + 1) ++ [102] :=
  ⟨by decide, by decide, by decide, by decide,
    term_position_cursor_exact 23 79 (by decide) (by decide)⟩

/-- The bytes written by the first `k` rounds of the loop of `draw_cells`. -/
theorem draw_loop (g : Game) :
    ∀ k, k ≤ g.cells.length →
      (List.range k).foldlM (draw_cells_cell g) []
        = some ((g.cells.take k).flatMap fun cell =>
            term_position_cursor cell.row cell.col ++ (if cell.alive then BLOCK else BLANK)) := by
  intro k
  induction k with
  | zero =>
    intro _
    rfl
  | succ k ih =>
    intro hk
    have hlt : k < g.cells.length := by omega
    rw [List.range_succ, List.foldlM_append, ih (by omega)]
    simp only [Option.bind_eq_bind, Option.some_bind, List.foldlM_cons, List.foldlM_nil,
      draw_cells_cell, List.getElem?_eq_getElem hlt, Option.pure_def, Option.bind_some,
      List.take_succ, Option.toList_some, List.flatMap_append, List.flatMap_cons,
      List.flatMap_nil, List.append_nil, List.append_assoc]

/-- C13 (frame drawing): on a state whose array has `num_cells` elements,
`draw_cells` returns, and what it writes is, for each cell in increasing index
order, the output of `term_position_cursor` for the stored `(row, col)`
immediately followed by the block glyph if the cell is alive and by one space
otherwise, and nothing else; for a `1 x 1` grid whose cell is alive this is
exactly `ESC [ 1 ; 1 f` followed by the glyph. -/
theorem draw_cells_exact (g : Game) (hlen : g.cells.length = g.num_cells) :
    draw_cells g
      = some (g.cells.flatMap fun cell =>
          term_position_cursor cell.row cell.col ++ (if cell.alive then BLOCK else BLANK))
    ∧ (g.is_grid → g.num_rows = 1 → g.num_cols = 1 →
        (∀ cell, cell ∈ g.cells → cell.alive = true) →
        draw_cells g = some [27, 91, 49, 59, 49, 102, 226, 150, 136]) := by
  have h := draw_loop g g.num_cells (by omega)
  rw [← hlen, List.take_length] at h
  have hd : draw_cells g
      = some (g.cells.flatMap fun cell =>
          term_position_cursor cell.row cell.col ++ (if cell.alive then BLOCK else BLANK)) := by
    unfold draw_cells
    rw [← hlen]
    exact h
  refine ⟨hd, ?_⟩
  intro hg hr hc halive
  have hl : g.cells.length = 1 := by
    rw [hg.1.2.2.2.2, hg.1.2.2.2.1, hr, hc]
  obtain ⟨x, hx⟩ := List.length_eq_one.1 hl
  have hp := hg.2 0 (by omega)
  have ha := halive x (by rw [hx]; exact List.mem_singleton.2 rfl)
  simp only [hx, List.getElem_cons_zero, hc, Nat.zero_div, Nat.zero_mod] at hp
  rw [hd, hx]
  simp only [List.flatMap_cons, List.flatMap_nil, List.append_nil, hp.1, hp.2, ha, if_true]
  decide

theorem draw_cells_exact_witness :
    single_alive.cells.length = single_alive.num_cells
    ∧ draw_cells single_alive
      = some (single_alive.cells.flatMap fun cell =>
          term_position_cursor cell.row cell.col ++ (if cell.alive then BLOCK else BLANK))
    ∧ draw_cells single_alive = some [27, 91, 49, 59, 49, 102, 226, 150, 136] :=
  ⟨rfl, (draw_cells_exact single_alive rfl).1,
    (draw_cells_exact single_alive rfl).2 (by decide) rfl rfl (by decide)⟩

/-! ## One pass of the running loop -/

theorem deliver_eq (b : Bool) (g : Game) :
    deliver b g = { g with win_changed := g.win_changed || b } := by
  cases b
  · simp [deliver]
  · simp [deliver, winch_handler]

/-- C14 (resize flag consumption): one pass of the running loop of
`start_game` on a grid, with `SIGWINCH` arriving or not during each of its
three calls, performs exactly one `draw_cells`, then the sleep, then exactly
one `next_generation`, and only then reads the flag, once.  If the flag is
then true (it was set before the pass or by a signal during it) the pass
clears it and `start_game` returns; if it is false nothing is cleared, the
loop continues and the flag is still false.  The cells after the pass are
those `next_generation` computes, in both cases. -/
theorem start_game_tick_flag (g : Game) (hg : g.is_grid) (sig : Arrivals) :
    ∃ out g2 t, draw_cells g = some out ∧ next_generation g = some g2
      ∧ start_game_tick g sig = some t
      ∧ t.game.cells = g2.cells
      ∧ t.game.win_changed = false
      ∧ ((g.win_changed || sig.in_draw || sig.in_sleep || sig.in_evolve) = true →
          t.returned = true
          ∧ t.steps = [Step.draw out, Step.sleep, Step.evolve, Step.read_flag true,
              Step.clear_flag])
      ∧ ((g.win_changed || sig.in_draw || sig.in_sleep || sig.in_evolve) = false →
          t.returned = false
          ∧ t.steps = [Step.draw out, Step.sleep, Step.evolve, Step.read_flag false]) := by
  have hlen : g.cells.length = g.num_cells := hg.1.2.2.2.2
  have hdraw : draw_cells g = some (g.cells.flatMap fun cell =>
      term_position_cursor cell.row cell.col ++ (if cell.alive then BLOCK else BLANK)) := by
    have h := draw_loop g g.num_cells (by omega)
    rw [← hlen, List.take_length] at h
    unfold draw_cells
    rw [← hlen]
    exact h
  have hin := is_grid_in_range g hg
  have hnext : ∀ w, next_generation { g with win_changed := w }
      = some { g with win_changed := w, cells := g.cells.map (evolved g) } :=
    fun w => next_generation_eq { g with win_changed := w } hg.1 hin
  have hg0 : next_generation g = some { g with cells := g.cells.map (evolved g) } :=
    next_generation_eq g hg.1 hin
  refine ⟨_, _,
    { game := { g with win_changed := false, cells := g.cells.map (evolved g) },
      steps := [Step.draw (g.cells.flatMap fun cell =>
          term_position_cursor cell.row cell.col ++ (if cell.alive then BLOCK else BLANK)),
        Step.sleep, Step.evolve,
        Step.read_flag (g.win_changed || sig.in_draw || sig.in_sleep || sig.in_evolve)]
        ++ (if (g.win_changed || sig.in_draw || sig.in_sleep || sig.in_evolve) = true
            then [Step.clear_flag] else []),
      returned := g.win_changed || sig.in_draw || sig.in_sleep || sig.in_evolve },
    hdraw, hg0, ?_, rfl, rfl, ?_, ?_⟩
  · unfold start_game_tick
    simp only [hdraw, Option.bind_eq_bind, Option.some_bind, deliver_eq, hnext]
    cases hw : (g.win_changed || sig.in_draw || sig.in_sleep || sig.in_evolve)
    · simp [hw]
    · simp [hw]
  · intro hw
    simp [hw]
  · intro hw
    simp [hw]

theorem start_game_tick_flag_witness :
    blinker.is_grid ∧ ∃ out g2 t, draw_cells blinker = some out
      ∧ next_generation blinker = some g2
      ∧ start_game_tick blinker ⟨false, true, false⟩ = some t
      ∧ t.game.cells = g2.cells
      ∧ t.game.win_changed = false
      ∧ ((blinker.win_changed || false || true || false) = true →
          t.returned = true
          ∧ t.steps = [Step.draw out, Step.sleep, Step.evolve, Step.read_flag true,
              Step.clear_flag])
      ∧ ((blinker.win_changed || false || true || false) = false →
          t.returned = false
          ∧ t.steps = [Step.draw out, Step.sleep, Step.evolve, Step.read_flag false]) :=
  ⟨by decide, start_game_tick_flag blinker (by decide) ⟨false, true, false⟩⟩

/-! ## Seeding -/

/-- C15 (seeding): with the generator seen as the stream `rand 0, rand 1, ...`
of non-negative integers, the initialisation of `start_game` for an `R x C`
terminal returns after exactly `R * C` draws, one per cell in row-major
order: cell `i` is alive if and only if `rand i % 7 = 1`, and has
`next = false`.  Of the seven residues only the residue 1 makes a cell alive. -/
theorem seeding_one_in_seven (g0 : Game) (R C : Nat) (rand : Nat → Nat) (hR : R < 65536)
    (hC : C < 65536) :
    DENSITY = 7
    ∧ (∃ s, start_game_init g0 R C rand = some s
      ∧ s.drawn = R * C
      ∧ s.game.cells.length = R * C
      ∧ ∀ i, i < R * C → ∃ cell, s.game.cells[i]? = some cell
          ∧ cell.row = i / C ∧ cell.col = i % C
          ∧ (cell.alive = true ↔ rand i % 7 = 1)
          ∧ cell.next = false)
    ∧ ((List.range 7).filter fun x => x % DENSITY == 1) = [1] := by
  refine ⟨rfl, ?_, by decide⟩
  obtain ⟨s, hs, hgame, hdrawn⟩ := start_game_init_run g0 R C rand hR hC
  refine ⟨s, hs, hdrawn, ?_, ?_⟩
  · rw [hgame]
    simp [seeded_cells]
  · intro i hi
    rw [hgame]
    refine ⟨⟨i / C, i % C, rand i % DENSITY == 1, false⟩, ?_, rfl, rfl, ?_, rfl⟩
    · simp only [seeded_cells, List.getElem?_map, List.getElem?_range hi, Option.map_some']
    · simp [DENSITY]

theorem seeding_one_in_seven_witness :
    2 < 65536 ∧ 3 < 65536 ∧ DENSITY = 7
    ∧ (∃ s, start_game_init blinker 2 3 (fun k => 3 * k + 1) = some s
      ∧ s.drawn = 2 * 3
      ∧ s.game.cells.length = 2 * 3
      ∧ ∀ i, i < 2 * 3 → ∃ cell, s.game.cells[i]? = some cell
          ∧ cell.row = i / 3 ∧ cell.col = i % 3
          ∧ (cell.alive = true ↔ (fun k => 3 * k + 1) i % 7 = 1)
          ∧ cell.next = false)
    ∧ ((List.range 7).filter fun x => x % DENSITY == 1) = [1] :=
  ⟨by decide, by decide,
    seeding_one_in_seven blinker 2 3 (fun k => 3 * k + 1) (by decide) (by decide)⟩

/-! ## The interrupt handler -/

/-- C16 (interrupt handling): `int_handler` writes exactly the show-cursor
sequence `ESC [ ? 2 5 h` followed by the reset sequence `ESC c`, leaves the
grid and the resize flag as they are, writes the same bytes whatever they
are, and ends the process with exit status 0. -/
theorem int_handler_exact (g : Game) (signum : Int) :
    (int_handler g signum).output = [27, 91, 63, 50, 53, 104] ++ [27, 99]
    ∧ (int_handler g signum).output = term_show_cursor ++ term_reset
    ∧ (int_handler g signum).game = g
    ∧ (int_handler g signum).status = 0
    ∧ ∀ (g2 : Game) (signum2 : Int),
        (int_handler g2 signum2).output = (int_handler g signum).output
        ∧ (int_handler g2 signum2).status = (int_handler g signum).status :=
  ⟨rfl, rfl, rfl, rfl, fun _ _ => ⟨rfl, rfl⟩⟩

/-! ## Clamping is the same as a dead border -/

theorem cell_at_of_lt (g : Game) (r c : Nat) (h : r * g.num_cols + c < g.cells.length) :
    cell_at g r c = g.cells[r * g.num_cols + c] := by
  unfold cell_at
  simp [List.getD_eq_getElem?_getD, List.getElem?_eq_getElem h]

theorem padded_is_grid (g : Game) (hp : (g.num_rows + 2) * (g.num_cols + 2) < SIZE_MOD) :
    (padded g).is_grid := by
  have h1 : g.num_rows + 2 ≤ (g.num_rows + 2) * (g.num_cols + 2) :=
    Nat.le_mul_of_pos_right _ (by omega)
  have h2 : g.num_cols + 2 ≤ (g.num_rows + 2) * (g.num_cols + 2) :=
    Nat.le_mul_of_pos_left _ (by omega)
  refine ⟨⟨?_, ?_, hp, rfl, by simp [padded]⟩, ?_⟩
  · show g.num_rows + 2 < SIZE_MOD
    omega
  · show g.num_cols + 2 < SIZE_MOD
    omega
  · intro i hi
    simp [padded]

/-- The cell of the padded grid at `(pr, pc)`. -/
theorem cell_at_padded (g : Game) (pr pc : Nat) (hr : pr < g.num_rows + 2)
    (hc : pc < g.num_cols + 2) :
    cell_at (padded g) pr pc
      = { row := pr, col := pc,
          alive := decide (1 ≤ pr ∧ pr ≤ g.num_rows ∧ 1 ≤ pc ∧ pc ≤ g.num_cols)
            && (cell_at g (pr - 1) (pc - 1)).alive,
          next := false } := by
  have hlt : pr * (g.num_cols + 2) + pc < (g.num_rows + 2) * (g.num_cols + 2) := idx_lt hr hc
  obtain ⟨d1, d2⟩ := div_mod_of_eq (g.num_cols + 2) _ pr pc hc rfl
  have hl : pr * (padded g).num_cols + pc < (padded g).cells.length := by
    simp only [padded, List.length_map, List.length_range]
    exact hlt
  rw [cell_at_of_lt _ _ _ hl]
  simp only [padded, List.getElem_map, List.getElem_range, d1, d2]

/-- One summand of the count in the padded grid against the guarded summand of
the count in the original grid. -/
theorem padded_term (g : Game) (pr pc gr gc : Nat) (hr : pr < g.num_rows + 2)
    (hc : pc < g.num_cols + 2) (guard : Prop) [Decidable guard]
    (h1 : guard → pr = gr + 1 ∧ pc = gc + 1 ∧ gr < g.num_rows ∧ gc < g.num_cols)
    (h2 : ¬ guard → ¬ (1 ≤ pr ∧ pr ≤ g.num_rows ∧ 1 ≤ pc ∧ pc ≤ g.num_cols)) :
    (cell_at (padded g) pr pc).alive.toNat
      = if guard then (cell_at g gr gc).alive.toNat else 0 := by
  rw [cell_at_padded g pr pc hr hc]
  by_cases hgd : guard
  · obtain ⟨e1, e2, b1, b2⟩ := h1 hgd
    subst e1 e2
    have hin : 1 ≤ gr + 1 ∧ gr + 1 ≤ g.num_rows ∧ 1 ≤ gc + 1 ∧ gc + 1 ≤ g.num_cols := by omega
    simp only [hin, hgd, and_self, decide_True, Bool.true_and, Nat.add_sub_cancel, if_true]
  · have hout := h2 hgd
    simp only [hout, hgd, decide_False, Bool.false_and, if_false]
    rfl

theorem neighbor_sum_padded (g : Game) (r c : Nat) (hr : r < g.num_rows)
    (hc : c < g.num_cols) :
    neighbor_sum (padded g) (r + 1) (c + 1) = neighbor_sum g r c := by
  have g1 : 0 < r + 1 := by omega
  have g2 : 0 < c + 1 := by omega
  have g3 : c + 1 < g.num_cols + 2 - 1 := by omega
  have g4 : r + 1 < g.num_rows + 2 - 1 := by omega
  have e : neighbor_sum (padded g) (r + 1) (c + 1)
      = 0 + (cell_at (padded g) r c).alive.toNat + (cell_at (padded g) r (c + 1)).alive.toNat
        + (cell_at (padded g) r (c + 1 + 1)).alive.toNat
        + (cell_at (padded g) (r + 1) c).alive.toNat
        + (cell_at (padded g) (r + 1) (c + 1 + 1)).alive.toNat
        + (cell_at (padded g) (r + 1 + 1) c).alive.toNat
        + (cell_at (padded g) (r + 1 + 1) (c + 1)).alive.toNat
        + (cell_at (padded g) (r + 1 + 1) (c + 1 + 1)).alive.toNat := by
    unfold neighbor_sum
    have n1 : (padded g).num_rows = g.num_rows + 2 := rfl
    have n2 : (padded g).num_cols = g.num_cols + 2 := rfl
    simp only [n1, n2, g1, g2, g3, g4, and_self, if_true, Nat.add_sub_cancel]
  rw [e]
  unfold neighbor_sum
  rw [padded_term g r c (r - 1) (c - 1) (by omega) (by omega) (0 < r ∧ 0 < c)
      (by omega) (by omega),
    padded_term g r (c + 1) (r - 1) c (by omega) (by omega) (0 < r) (by omega) (by omega),
    padded_term g r (c + 1 + 1) (r - 1) (c + 1) (by omega) (by omega)
      (0 < r ∧ c < g.num_cols - 1) (by omega) (by omega),
    padded_term g (r + 1) c r (c - 1) (by omega) (by omega) (0 < c) (by omega) (by omega),
    padded_term g (r + 1) (c + 1 + 1) r (c + 1) (by omega) (by omega) (c < g.num_cols - 1)
      (by omega) (by omega),
    padded_term g (r + 1 + 1) c (r + 1) (c - 1) (by omega) (by omega)
      (r < g.num_rows - 1 ∧ 0 < c) (by omega) (by omega),
    padded_term g (r + 1 + 1) (c + 1) (r + 1) c (by omega) (by omega) (r < g.num_rows - 1)
      (by omega) (by omega),
    padded_term g (r + 1 + 1) (c + 1 + 1) (r + 1) (c + 1) (by omega) (by omega)
      (r < g.num_rows - 1 ∧ c < g.num_cols - 1) (by omega) (by omega)]

/-- The cell at `(r, c)` after `next_generation` on a grid. -/
theorem cell_at_evolved (g : Game) (hg : g.is_grid) (r c : Nat) (hr : r < g.num_rows)
    (hc : c < g.num_cols) :
    (cell_at { g with cells := g.cells.map (evolved g) } r c).alive
      = staged_value (cell_at g r c).alive (neighbor_sum g r c) := by
  obtain ⟨hget, e1, e2⟩ := is_grid_cell_at g hg r c hr hc
  have hl : r * g.num_cols + c < g.cells.length := by
    by_contra hn
    rw [List.getElem?_eq_none (by omega)] at hget
    cases hget
  have h2 : cell_at { g with cells := g.cells.map (evolved g) } r c
      = evolved g (cell_at g r c) := by
    rw [cell_at_of_lt _ _ _ (by simpa using hl), cell_at_of_lt _ _ _ hl]
    simp only [List.getElem_map]
  rw [h2]
  simp only [evolved, e1, e2]

/-- C17 (clamping equals a dead border): let `padded g` be the grid `g`
surrounded by one ring of dead cells, itself a grid of
`(num_rows + 2) x (num_cols + 2)` cells.  For every cell `(r, c)` of `g`,
`sum_of_neighbors` returns the same value on `g` at `(r, c)` as on `padded g`
at `(r + 1, c + 1)`, and the `alive` value of `(r, c)` after `next_generation`
on `g` is the `alive` value of `(r + 1, c + 1)` after `next_generation` on
`padded g`. -/
theorem clamping_is_dead_border (g : Game) (hg : g.is_grid)
    (hp : (g.num_rows + 2) * (g.num_cols + 2) < SIZE_MOD) (r c : Nat)
    (hr : r < g.num_rows) (hc : c < g.num_cols) :
    (padded g).is_grid
    ∧ (∀ pr pc, pr < g.num_rows + 2 → pc < g.num_cols + 2 →
        (cell_at (padded g) pr pc).alive
          = (decide (1 ≤ pr ∧ pr ≤ g.num_rows ∧ 1 ≤ pc ∧ pc ≤ g.num_cols)
              && (cell_at g (pr - 1) (pc - 1)).alive))
    ∧ ∃ cell pcell n g2 p2,
        g.cells[r * g.num_cols + c]? = some cell ∧ cell.row = r ∧ cell.col = c
        ∧ (padded g).cells[(r + 1) * (g.num_cols + 2) + (c + 1)]? = some pcell
        ∧ pcell.row = r + 1 ∧ pcell.col = c + 1 ∧ pcell.alive = cell.alive
        ∧ ((sum_of_neighbors g cell).run).map Prod.fst = some n
        ∧ ((sum_of_neighbors (padded g) pcell).run).map Prod.fst = some n
        ∧ next_generation g = some g2 ∧ next_generation (padded g) = some p2
        ∧ (cell_at g2 r c).alive = (cell_at p2 (r + 1) (c + 1)).alive := by
  have hpg := padded_is_grid g hp
  obtain ⟨hget, e1, e2⟩ := is_grid_cell_at g hg r c hr hc
  obtain ⟨pget, p1, p2⟩ := is_grid_cell_at (padded g) hpg (r + 1) (c + 1)
    (show r + 1 < g.num_rows + 2 by omega) (show c + 1 < g.num_cols + 2 by omega)
  have hcp := cell_at_padded g (r + 1) (c + 1) (by omega) (by omega)
  have hin : 1 ≤ r + 1 ∧ r + 1 ≤ g.num_rows ∧ 1 ≤ c + 1 ∧ c + 1 ≤ g.num_cols := by omega
  have halive : (cell_at (padded g) (r + 1) (c + 1)).alive = (cell_at g r c).alive := by
    rw [hcp]
    simp only [hin, and_self, decide_True, Bool.true_and, Nat.add_sub_cancel]
  have hsum := neighbor_sum_padded g r c hr hc
  refine ⟨hpg, ?_, cell_at g r c, cell_at (padded g) (r + 1) (c + 1), neighbor_sum g r c, _, _,
    hget, e1, e2, pget, p1, p2, halive, ?_, ?_,
    next_generation_eq g hg.1 (is_grid_in_range g hg),
    next_generation_eq (padded g) hpg.1 (is_grid_in_range _ hpg), ?_⟩
  · intro pr pc h1 h2
    rw [cell_at_padded g pr pc h1 h2]
  · rw [sum_of_neighbors_run g _ hg.1 (by rw [e1]; exact hr) (by rw [e2]; exact hc), e1, e2]
    rfl
  · rw [sum_of_neighbors_run (padded g) _ hpg.1 (by rw [p1]; exact (by
        show r + 1 < g.num_rows + 2
        omega)) (by
        rw [p2]
        show c + 1 < g.num_cols + 2
        omega), p1, p2, hsum]
    rfl
  · rw [cell_at_evolved g hg r c hr hc,
      cell_at_evolved (padded g) hpg (r + 1) (c + 1) (show r + 1 < g.num_rows + 2 by omega)
        (show c + 1 < g.num_cols + 2 by omega), halive, hsum]

theorem clamping_is_dead_border_witness :
    lopsided.is_grid ∧ (lopsided.num_rows + 2) * (lopsided.num_cols + 2) < SIZE_MOD
    ∧ 0 < lopsided.num_rows ∧ 2 < lopsided.num_cols
    ∧ (padded lopsided).is_grid
    ∧ (∀ pr pc, pr < lopsided.num_rows + 2 → pc < lopsided.num_cols + 2 →
        (cell_at (padded lopsided) pr pc).alive
          = (decide (1 ≤ pr ∧ pr ≤ lopsided.num_rows ∧ 1 ≤ pc ∧ pc ≤ lopsided.num_cols)
              && (cell_at lopsided (pr - 1) (pc - 1)).alive))
    ∧ ∃ cell pcell n g2 p2,
        lopsided.cells[0 * lopsided.num_cols + 2]? = some cell ∧ cell.row = 0 ∧ cell.col = 2
        ∧ (padded lopsided).cells[(0 + 1) * (lopsided.num_cols + 2) + (2 + 1)]? = some pcell
        ∧ pcell.row = 0 + 1 ∧ pcell.col = 2 + 1 ∧ pcell.alive = cell.alive
        ∧ ((sum_of_neighbors lopsided cell).run).map Prod.fst = some n
        ∧ ((sum_of_neighbors (padded lopsided) pcell).run).map Prod.fst = some n
        ∧ next_generation lopsided = some g2 ∧ next_generation (padded lopsided) = some p2
        ∧ (cell_at g2 0 2).alive = (cell_at p2 (0 + 1) (2 + 1)).alive :=
  ⟨by decide, by decide, by decide, by decide,
    clamping_is_dead_border lopsided (by decide) (by decide) 0 2 (by decide) (by decide)⟩

/-! ## Mirror symmetry -/

theorem mirror_lr_is_grid (g : Game) (hg : g.is_grid) : (mirror_lr g).is_grid := by
  obtain ⟨⟨a, b, c, d, e⟩, hpos⟩ := hg
  refine ⟨⟨a, b, c, d, by simpa [mirror_lr] using e⟩, ?_⟩
  intro i hi
  have hi2 : i < g.cells.length := by simpa [mirror_lr] using hi
  simp only [mirror_lr, List.getElem_map]
  exact hpos i hi2

theorem mirror_tb_is_grid (g : Game) (hg : g.is_grid) : (mirror_tb g).is_grid := by
  obtain ⟨⟨a, b, c, d, e⟩, hpos⟩ := hg
  refine ⟨⟨a, b, c, d, by simpa [mirror_tb] using e⟩, ?_⟩
  intro i hi
  have hi2 : i < g.cells.length := by simpa [mirror_tb] using hi
  simp only [mirror_tb, List.getElem_map]
  exact hpos i hi2

/-- The cell at `(r, c)` of an array to which `F` has been applied cell by cell. -/
theorem cell_at_map (g : Game) (hg : g.is_grid) (F : Cell → Cell) (r c : Nat)
    (hr : r < g.num_rows) (hc : c < g.num_cols) :
    cell_at { g with cells := g.cells.map F } r c = F (cell_at g r c) := by
  have hl : r * g.num_cols + c < g.cells.length := by
    have := idx_lt hr hc
    rw [hg.1.2.2.2.2, hg.1.2.2.2.1]
    exact this
  rw [cell_at_of_lt _ _ _ (by simpa using hl), cell_at_of_lt _ _ _ hl]
  simp only [List.getElem_map]

theorem cell_at_mirror_lr (g : Game) (hg : g.is_grid) (r c : Nat) (hr : r < g.num_rows)
    (hc : c < g.num_cols) :
    (cell_at (mirror_lr g) r c).alive = (cell_at g r (g.num_cols - 1 - c)).alive := by
  obtain ⟨_, e1, e2⟩ := is_grid_cell_at g hg r c hr hc
  unfold mirror_lr
  rw [cell_at_map g hg _ r c hr hc]
  simp only [e1, e2]

theorem cell_at_mirror_tb (g : Game) (hg : g.is_grid) (r c : Nat) (hr : r < g.num_rows)
    (hc : c < g.num_cols) :
    (cell_at (mirror_tb g) r c).alive = (cell_at g (g.num_rows - 1 - r) c).alive := by
  obtain ⟨_, e1, e2⟩ := is_grid_cell_at g hg r c hr hc
  unfold mirror_tb
  rw [cell_at_map g hg _ r c hr hc]
  simp only [e1, e2]

/-- A guarded summand of the count in the left-right mirror image against the
matching summand in the original grid. -/
theorem mirror_lr_term (g : Game) (hg : g.is_grid) (r cm cg : Nat) (gm gg : Prop)
    [Decidable gm] [Decidable gg] (hiff : gm ↔ gg)
    (h : gm → r < g.num_rows ∧ cm < g.num_cols ∧ g.num_cols - 1 - cm = cg) :
    (if gm then (cell_at (mirror_lr g) r cm).alive.toNat else 0)
      = (if gg then (cell_at g r cg).alive.toNat else 0) := by
  by_cases hm : gm
  · obtain ⟨b1, b2, e⟩ := h hm
    simp only [hm, hiff.1 hm, if_true, cell_at_mirror_lr g hg r cm b1 b2, e]
  · have hn : ¬ gg := fun x => hm (hiff.2 x)
    simp only [hm, hn, if_false]

/-- A guarded summand of the count in the top-bottom mirror image against the
matching summand in the original grid. -/
theorem mirror_tb_term (g : Game) (hg : g.is_grid) (rm rg c : Nat) (gm gg : Prop)
    [Decidable gm] [Decidable gg] (hiff : gm ↔ gg)
    (h : gm → rm < g.num_rows ∧ c < g.num_cols ∧ g.num_rows - 1 - rm = rg) :
    (if gm then (cell_at (mirror_tb g) rm c).alive.toNat else 0)
      = (if gg then (cell_at g rg c).alive.toNat else 0) := by
  by_cases hm : gm
  · obtain ⟨b1, b2, e⟩ := h hm
    simp only [hm, hiff.1 hm, if_true, cell_at_mirror_tb g hg rm c b1 b2, e]
  · have hn : ¬ gg := fun x => hm (hiff.2 x)
    simp only [hm, hn, if_false]

theorem neighbor_sum_mirror_lr (g : Game) (hg : g.is_grid) (r c : Nat) (hr : r < g.num_rows)
    (hc : c < g.num_cols) :
    neighbor_sum (mirror_lr g) r c = neighbor_sum g r (g.num_cols - 1 - c) := by
  have n1 : (mirror_lr g).num_rows = g.num_rows := rfl
  have n2 : (mirror_lr g).num_cols = g.num_cols := rfl
  unfold neighbor_sum
  rw [n1, n2,
    mirror_lr_term g hg (r - 1) (c - 1) (g.num_cols - 1 - c + 1) (0 < r ∧ 0 < c)
      (0 < r ∧ g.num_cols - 1 - c < g.num_cols - 1) (by omega) (by omega),
    mirror_lr_term g hg (r - 1) c (g.num_cols - 1 - c) (0 < r) (0 < r) Iff.rfl (by omega),
    mirror_lr_term g hg (r - 1) (c + 1) (g.num_cols - 1 - c - 1) (0 < r ∧ c < g.num_cols - 1)
      (0 < r ∧ 0 < g.num_cols - 1 - c) (by omega) (by omega),
    mirror_lr_term g hg r (c - 1) (g.num_cols - 1 - c + 1) (0 < c)
      (g.num_cols - 1 - c < g.num_cols - 1) (by omega) (by omega),
    mirror_lr_term g hg r (c + 1) (g.num_cols - 1 - c - 1) (c < g.num_cols - 1)
      (0 < g.num_cols - 1 - c) (by omega) (by omega),
    mirror_lr_term g hg (r + 1) (c - 1) (g.num_cols - 1 - c + 1) (r < g.num_rows - 1 ∧ 0 < c)
      (r < g.num_rows - 1 ∧ g.num_cols - 1 - c < g.num_cols - 1) (by omega) (by omega),
    mirror_lr_term g hg (r + 1) c (g.num_cols - 1 - c) (r < g.num_rows - 1)
      (r < g.num_rows - 1) Iff.rfl (by omega),
    mirror_lr_term g hg (r + 1) (c + 1) (g.num_cols - 1 - c - 1)
      (r < g.num_rows - 1 ∧ c < g.num_cols - 1)
      (r < g.num_rows - 1 ∧ 0 < g.num_cols - 1 - c) (by omega) (by omega)]
  omega

theorem neighbor_sum_mirror_tb (g : Game) (hg : g.is_grid) (r c : Nat) (hr : r < g.num_rows)
    (hc : c < g.num_cols) :
    neighbor_sum (mirror_tb g) r c = neighbor_sum g (g.num_rows - 1 - r) c := by
  have n1 : (mirror_tb g).num_rows = g.num_rows := rfl
  have n2 : (mirror_tb g).num_cols = g.num_cols := rfl
  unfold neighbor_sum
  rw [n1, n2,
    mirror_tb_term g hg (r - 1) (g.num_rows - 1 - r + 1) (c - 1) (0 < r ∧ 0 < c)
      (g.num_rows - 1 - r < g.num_rows - 1 ∧ 0 < c) (by omega) (by omega),
    mirror_tb_term g hg (r - 1) (g.num_rows - 1 - r + 1) c (0 < r)
      (g.num_rows - 1 - r < g.num_rows - 1) (by omega) (by omega),
    mirror_tb_term g hg (r - 1) (g.num_rows - 1 - r + 1) (c + 1) (0 < r ∧ c < g.num_cols - 1)
      (g.num_rows - 1 - r < g.num_rows - 1 ∧ c < g.num_cols - 1) (by omega) (by omega),
    mirror_tb_term g hg r (g.num_rows - 1 - r) (c - 1) (0 < c) (0 < c) Iff.rfl (by omega),
    mirror_tb_term g hg r (g.num_rows - 1 - r) (c + 1) (c < g.num_cols - 1)
      (c < g.num_cols - 1) Iff.rfl (by omega),
    mirror_tb_term g hg (r + 1) (g.num_rows - 1 - r - 1) (c - 1) (r < g.num_rows - 1 ∧ 0 < c)
      (0 < g.num_rows - 1 - r ∧ 0 < c) (by omega) (by omega),
    mirror_tb_term g hg (r + 1) (g.num_rows - 1 - r - 1) c (r < g.num_rows - 1)
      (0 < g.num_rows - 1 - r) (by omega) (by omega),
    mirror_tb_term g hg (r + 1) (g.num_rows - 1 - r - 1) (c + 1)
      (r < g.num_rows - 1 ∧ c < g.num_cols - 1)
      (0 < g.num_rows - 1 - r ∧ c < g.num_cols - 1) (by omega) (by omega)]
  omega

theorem mem_in_range (g : Game) (hg : g.is_grid) (x : Cell) (hx : x ∈ g.cells) :
    x.row < g.num_rows ∧ x.col < g.num_cols := by
  obtain ⟨i, hi, rfl⟩ := List.getElem_of_mem hx
  exact is_grid_in_range g hg i hi

theorem next_generation_mirror_lr (g : Game) (hg : g.is_grid) :
    alive_snapshot { mirror_lr g with
        cells := (mirror_lr g).cells.map (evolved (mirror_lr g)) }
      = alive_snapshot (mirror_lr { g with cells := g.cells.map (evolved g) }) := by
  unfold alive_snapshot
  simp only [mirror_lr, List.map_map]
  apply List.map_congr_left
  intro x hx
  obtain ⟨b1, b2⟩ := mem_in_range g hg x hx
  have hc2 : g.num_cols - 1 - x.col < g.num_cols := by omega
  have h1 := neighbor_sum_mirror_lr g hg x.row x.col b1 b2
  have h2 := cell_at_evolved g hg x.row (g.num_cols - 1 - x.col) b1 hc2
  simp only [mirror_lr] at h1
  simp only [Function.comp_apply, evolved, h1]
  exact h2.symm

theorem next_generation_mirror_tb (g : Game) (hg : g.is_grid) :
    alive_snapshot { mirror_tb g with
        cells := (mirror_tb g).cells.map (evolved (mirror_tb g)) }
      = alive_snapshot (mirror_tb { g with cells := g.cells.map (evolved g) }) := by
  unfold alive_snapshot
  simp only [mirror_tb, List.map_map]
  apply List.map_congr_left
  intro x hx
  obtain ⟨b1, b2⟩ := mem_in_range g hg x hx
  have hr2 : g.num_rows - 1 - x.row < g.num_rows := by omega
  have h1 := neighbor_sum_mirror_tb g hg x.row x.col b1 b2
  have h2 := cell_at_evolved g hg (g.num_rows - 1 - x.row) x.col hr2 b2
  simp only [mirror_tb] at h1
  simp only [Function.comp_apply, evolved, h1]
  exact h2.symm

/-- C18 (mirror symmetry): `next_generation` commutes with reflecting the
alive pattern of a grid left-right (`(r, c)` with `(r, num_cols - 1 - c)`) and
top-bottom (`(r, c)` with `(num_rows - 1 - r, c)`): reflecting and then running
one call gives the same alive pattern as running one call and then
reflecting. -/
theorem next_generation_mirror (g : Game) (hg : g.is_grid) :
    (∀ r c, r < g.num_rows → c < g.num_cols →
      (cell_at (mirror_lr g) r c).alive = (cell_at g r (g.num_cols - 1 - c)).alive
      ∧ (cell_at (mirror_tb g) r c).alive = (cell_at g (g.num_rows - 1 - r) c).alive)
    ∧ ∃ g2 a b, next_generation g = some g2
      ∧ next_generation (mirror_lr g) = some a
      ∧ next_generation (mirror_tb g) = some b
      ∧ alive_snapshot a = alive_snapshot (mirror_lr g2)
      ∧ alive_snapshot b = alive_snapshot (mirror_tb g2) := by
  have hl := mirror_lr_is_grid g hg
  have ht := mirror_tb_is_grid g hg
  refine ⟨fun r c hr hc => ⟨cell_at_mirror_lr g hg r c hr hc, cell_at_mirror_tb g hg r c hr hc⟩,
    _, _, _, next_generation_eq g hg.1 (is_grid_in_range g hg),
    next_generation_eq _ hl.1 (is_grid_in_range _ hl),
    next_generation_eq _ ht.1 (is_grid_in_range _ ht),
    next_generation_mirror_lr g hg, next_generation_mirror_tb g hg⟩

theorem next_generation_mirror_witness :
    lopsided.is_grid
    ∧ (∀ r c, r < lopsided.num_rows → c < lopsided.num_cols →
      (cell_at (mirror_lr lopsided) r c).alive
        = (cell_at lopsided r (lopsided.num_cols - 1 - c)).alive
      ∧ (cell_at (mirror_tb lopsided) r c).alive
        = (cell_at lopsided (lopsided.num_rows - 1 - r) c).alive)
    ∧ ∃ g2 a b, next_generation lopsided = some g2
      ∧ next_generation (mirror_lr lopsided) = some a
      ∧ next_generation (mirror_tb lopsided) = some b
      ∧ alive_snapshot a = alive_snapshot (mirror_lr g2)
      ∧ alive_snapshot b = alive_snapshot (mirror_tb g2) :=
  ⟨by decide, next_generation_mirror lopsided (by decide)⟩

end Life
